import Mathlib

/-!
Verification of the semantic core of an incremental analysis engine
(crate graph, stable syntax pointers, HIR body lowering, impl-block
indexing, keyword completion), shallowly embedded from the Rust sources
in `crates/ra_db`, `crates/ra_hir`, `crates/ra_syntax` and
`crates/ra_analysis`.
-/

/-! # Part 1: the crate graph (`ra_db/src/input.rs`) -/

/-- `FileId` is an integer which uniquely identifies a file. -/
structure FileId where
  id : Nat
deriving DecidableEq, Repr

/-- A labeled dependency edge; `crate_id` is the target crate (crate ids are
dense naturals, mirroring `CrateId(u32)` with ids assigned from 0). -/
structure Dependency where
  crate_id : Nat
  name : String
deriving DecidableEq, Repr

/-- Per-crate data: root file and dependency list, mirroring `CrateData`. -/
structure CrateData where
  file_id : FileId
  dependencies : List Dependency
deriving DecidableEq, Repr

/-- The crate graph.  The Rust code stores `FxHashMap<CrateId, CrateData>`
with ids assigned densely (`CrateId(arena.len())`), which is exactly a list
indexed by crate id. -/
structure CrateGraph where
  arena : List CrateData
deriving DecidableEq, Repr

def emptyCrateGraph : CrateGraph := ⟨[]⟩

/-- `CrateGraph::add_crate_root`: allocates the next dense id. -/
def addCrateRoot (g : CrateGraph) (file_id : FileId) : Nat × CrateGraph :=
  (g.arena.length, ⟨g.arena ++ [⟨file_id, []⟩]⟩)

/-- `CrateGraph::dependencies`: dependency list of a crate (empty when the
crate id is not allocated; inside `add_dep` the id is always allocated). -/
def depsOf (g : CrateGraph) (c : Nat) : List Dependency :=
  ((g.arena[c]?).map (·.dependencies)).getD []

/-- The loop body of `CrateGraph::dfs_find`: iterate over the dependency
list, succeed when an edge hits `target`, otherwise recurse (the recursion
is the `rec` argument, instantiated with `dfsFind` at one less fuel).
The visited set is threaded through the iterations, as the single
`&mut FxHashSet` is in the Rust code. -/
def dfsStep (target : Nat) (rec : Nat → List Nat → Bool × List Nat) :
    List Dependency → List Nat → Bool × List Nat
  | [], visited => (false, visited)
  | d :: ds, visited =>
    if d.crate_id = target then (true, visited)
    else
      match rec d.crate_id visited with
      | (true, visited1) => (true, visited1)
      | (false, visited1) => dfsStep target rec ds visited1

/-- `CrateGraph::dfs_find target from visited`: depth-first search from
`from` for an edge into `target`, with a visited set.  The Rust recursion
terminates because the visited set grows; here the same computation is
driven by a fuel parameter (callers pass fuel larger than the crate count,
which is always sufficient). -/
def dfsFind (g : CrateGraph) (target : Nat) :
    Nat → Nat → List Nat → Bool × List Nat
  | 0, _, visited => (false, visited)
  | fuel + 1, frm, visited =>
    if frm ∈ visited then (false, visited)
    else dfsStep target (dfsFind g target fuel) (depsOf g frm) (frm :: visited)

/-- `CrateGraph::add_dep from name to`: panics (modeled as `none`) when
`dfs_find(from, to, ∅)` finds a path, otherwise appends
`Dependency { name, crate_id: to }` to `from`'s dependency list (the
`unwrap` on a missing `from` is also a panic, hence `none`). -/
def addDep (g : CrateGraph) (frm : Nat) (nm : String) (toCrate : Nat) : Option CrateGraph :=
  if (dfsFind g frm (g.arena.length + 1) toCrate []).1 then none
  else
    match g.arena[frm]? with
    | none => none
    | some cd => some ⟨g.arena.set frm ⟨cd.file_id, cd.dependencies ++ [⟨toCrate, nm⟩]⟩⟩

/-- There is a dependency edge from crate `a` to crate `b`. -/
def Edge (g : CrateGraph) (a b : Nat) : Prop :=
  ∃ d ∈ depsOf g a, d.crate_id = b

/-- `b` is reachable from `a` through at least one dependency edge. -/
def Reaches (g : CrateGraph) (a b : Nat) : Prop :=
  Relation.TransGen (Edge g) a b

/-- Every dependency edge stays inside the allocated crate ids. -/
def GraphWF (g : CrateGraph) : Prop :=
  ∀ i < g.arena.length, ∀ d ∈ depsOf g i, d.crate_id < g.arena.length

/-! # Part 2: syntax trees and stable node pointers (`ra_db/src/syntax_ptr.rs`) -/

/-- A text range `[lo, hi)` in a file, mirroring `TextRange`. -/
structure TextRange where
  lo : Nat
  hi : Nat
deriving DecidableEq, Repr

/-- `TextRange::is_subrange`: `r1.is_subrange(r2)` holds when `r1 ⊆ r2`. -/
def isSubrange (r1 r2 : TextRange) : Bool :=
  r2.lo ≤ r1.lo && r1.hi ≤ r2.hi

/-- A concrete syntax tree node as the external parser exposes it: a
syntax kind (an opaque enumeration, modeled as `Nat`), a text range and
the child nodes in text order. -/
inductive SyntaxTree where
  | node (kind : Nat) (range : TextRange) (children : List SyntaxTree)

def SyntaxTree.kindOf : SyntaxTree → Nat
  | .node k _ _ => k

def SyntaxTree.rangeOf : SyntaxTree → TextRange
  | .node _ r _ => r

def SyntaxTree.childrenOf : SyntaxTree → List SyntaxTree
  | .node _ _ cs => cs

/-- A pointer to a syntax node inside a file: `LocalSyntaxPtr { range, kind }`. -/
structure LocalSyntaxPtr where
  range : TextRange
  kind : Nat
deriving DecidableEq, Repr

/-- `LocalSyntaxPtr::new`: captures the node's range and kind. -/
def LocalSyntaxPtr.new (n : SyntaxTree) : LocalSyntaxPtr :=
  ⟨n.rangeOf, n.kindOf⟩

mutual
/-- `LocalSyntaxPtr::resolve`: walk down from the root; stop at the first
node whose range and kind both equal the pointer's, otherwise descend into
the first child whose range contains the pointer's range; the
`unwrap_or_else(panic)` when no child qualifies is modeled as `none`. -/
def resolve (p : LocalSyntaxPtr) : SyntaxTree → Option SyntaxTree
  | .node k r cs =>
    if r = p.range ∧ k = p.kind then some (.node k r cs)
    else resolveIn p cs
def resolveIn (p : LocalSyntaxPtr) : List SyntaxTree → Option SyntaxTree
  | [] => none
  | c :: cs => if isSubrange p.range c.rangeOf then resolve p c else resolveIn p cs
end

mutual
/-- All nodes of a tree (the tree itself and, recursively, the nodes of
its children); `n ∈ subtreesOf t` is "n is a node of t". -/
def subtreesOf : SyntaxTree → List SyntaxTree
  | .node k r cs => .node k r cs :: subtreesOfList cs
def subtreesOfList : List SyntaxTree → List SyntaxTree
  | [] => []
  | c :: cs => subtreesOf c ++ subtreesOfList cs
end

/-- Structural well-formedness of a parse tree: ranges are ordered
(`lo ≤ hi`), every child's range is contained in its parent's, and the
children of one node occupy pairwise non-overlapping ranges in text
order. -/
inductive WFTree : SyntaxTree → Prop where
  | mk (k : Nat) (r : TextRange) (cs : List SyntaxTree)
      (hord : r.lo ≤ r.hi)
      (hsub : ∀ c ∈ cs, r.lo ≤ c.rangeOf.lo ∧ c.rangeOf.hi ≤ r.hi)
      (hdisj : cs.Pairwise (fun a b => a.rangeOf.hi ≤ b.rangeOf.lo))
      (hrec : ∀ c ∈ cs, WFTree c) :
      WFTree (.node k r cs)

/-! # Part 5: keyword completion (`ra_analysis/src/completion/complete_keyword.rs`) -/

/-- Syntax kinds used by the keyword completion code (values of the
`SyntaxKind` enumeration; only distinctness matters). -/
def FN_DEF : Nat := 1

def LAMBDA_EXPR : Nat := 2

def FOR_EXPR : Nat := 3

def WHILE_EXPR : Nat := 4

def LOOP_EXPR : Nat := 5

def BLOCK : Nat := 6

/-- `LoopBodyOwner::loop_body`: the first child of a loop node that is a
`Block` (`child_opt` takes the first castable child). -/
def loopBody (t : SyntaxTree) : Option SyntaxTree :=
  t.childrenOf.find? (fun c => c.kindOf == BLOCK)

/-- `is_in_loop_body`: walk the ancestors starting at the completion
leaf; stop (returning false) at the first `FN_DEF`/`LAMBDA_EXPR`; return
true at the first for/while/loop ancestor whose loop body's range
contains the leaf's range. -/
def isInLoopBody (leafRange : TextRange) : List SyntaxTree → Bool
  | [] => false
  | n :: rest =>
    if n.kindOf = FN_DEF ∨ n.kindOf = LAMBDA_EXPR then false
    else
      match (if n.kindOf = FOR_EXPR ∨ n.kindOf = WHILE_EXPR ∨ n.kindOf = LOOP_EXPR
             then some (loopBody n) else none) with
      | some (some body) =>
        if isSubrange leafRange body.rangeOf then true
        else isInLoopBody leafRange rest
      | _ => isInLoopBody leafRange rest

structure CompletionItem where
  label : String
  snippet : String
deriving DecidableEq, Repr

/-- The `keyword` completion-item builder. -/
def keyword (kw snip : String) : CompletionItem := ⟨kw, snip⟩

/-- The function definition node, abstracted to the only accessor the
completion code uses (`ret_type()` presence). -/
structure FnDefNode where
  ret_type : Option Nat
deriving DecidableEq, Repr

/-- `complete_return`: the snippet depends on (statement position,
function returns a value). -/
def completeReturn (fnDef : FnDefNode) (canBeStmt : Bool) : Option CompletionItem :=
  let snip :=
    match canBeStmt, fnDef.ret_type.isSome with
    | true, true => "return $0;"
    | true, false => "return;"
    | false, true => "return $0"
    | false, false => "return"
  some (keyword "return" snip)

/-- The completion context fields read by `complete_expr_keyword`. -/
structure CompletionContext where
  is_trivial_path : Bool
  function_syntax : Option FnDefNode
  after_if : Bool
  can_be_stmt : Bool
  leafRange : TextRange
  leafAncestors : List SyntaxTree

/-- `complete_expr_keyword`: keyword completions offered in expression
position (the accumulator's final contents, in insertion order). -/
def completeExprKeyword (ctx : CompletionContext) : List CompletionItem :=
  if !ctx.is_trivial_path then []
  else
    match ctx.function_syntax with
    | none => []
    | some fnDef =>
      [keyword "if" "if $0 \x7b\x7d", keyword "match" "match $0 \x7b\x7d",
       keyword "while" "while $0 \x7b\x7d", keyword "loop" "loop \x7b$0\x7d"]
      ++ (if ctx.after_if then
            [keyword "else" "else \x7b$0\x7d", keyword "else if" "else if $0 \x7b\x7d"]
          else [])
      ++ (if isInLoopBody ctx.leafRange ctx.leafAncestors then
            (if ctx.can_be_stmt then
              [keyword "continue" "continue;", keyword "break" "break;"]
            else
              [keyword "continue" "continue", keyword "break" "break"])
          else [])
      ++ (completeReturn fnDef ctx.can_be_stmt).toList

/-! # Part 3: HIR body lowering (`ra_hir/src/expr.rs`) -/

namespace Hir

/-- Names: `Name` wraps interned text (`ra_hir::Name`, not under `src/`);
only construction from text and the two fixed names matter here. -/
def Name := String
deriving DecidableEq, Repr

/-- Modelled from the spec: `Name::missing()`, the placeholder name used
when a name is syntactically absent (`ra_hir` name module, not under
`src/`). -/
def Name.missing : Name := "[missing name]"

/-- Modelled from the spec: `Name::self_param()`, the name of the
implicit `self` binding (`ra_hir` name module, not under `src/`). -/
def Name.self_param : Name := "self"

/-- A name reference token as the ast exposes it: its pointer and text
(`ast::NameRef`). -/
structure NameRef where
  ptr : LocalSyntaxPtr
  text : String
deriving DecidableEq, Repr

/-- Modelled from the spec: `NameRef::as_name` interns the token text. -/
def NameRef.as_name (nr : NameRef) : Name := nr.text

/-- A path in the HIR (`ra_hir::Path`, not under `src/`): an opaque value
with decidable equality; only identity matters for the lowering. -/
structure Path where
  segments : List Name
deriving DecidableEq, Repr

/-- A path node of the ast; `Path::from_ast` (not under `src/`) may fail,
so the node carries the conversion result it determines. -/
structure AstPath where
  toPath : Option Path
deriving DecidableEq, Repr

/-- Modelled from the spec: `Path::from_ast`, the fallible conversion of
a syntactic path (`ra_hir` path module, not under `src/`). -/
def Path.from_ast (p : AstPath) : Option Path := p.toPath

/-- Modelled from the spec: `Path::from_name_ref` builds the
single-segment path for a field-shorthand name reference (`ra_hir` path
module, not under `src/`). -/
def Path.from_name_ref (nr : NameRef) : Path := ⟨[nr.as_name]⟩

/-- A syntactic type node, opaque (`ast::TypeRef`); the payload only
gives distinct nodes distinct identity. -/
structure AstTypeRef where
  payload : Nat
deriving DecidableEq, Repr

/-- The lowered type reference (`ra_hir::type_ref::TypeRef`, not under
`src/`): either the conversion of a present syntactic type or the
placeholder (`TypeRef::Error`) used when the type is absent. -/
inductive TypeRef where
  | error
  | ofAst (payload : Nat)
deriving DecidableEq, Repr

/-- Modelled from the spec: `TypeRef::from_ast`, total conversion of a
present syntactic type (`ra_hir` type_ref module, not under `src/`). -/
def TypeRef.from_ast (t : AstTypeRef) : TypeRef := .ofAst t.payload

/-- `TypeRef::from_ast_opt`: absent types become the placeholder type. -/
def TypeRef.from_ast_opt : Option AstTypeRef → TypeRef
  | some t => TypeRef.from_ast t
  | none => TypeRef.error

/-- `Mutability` with `from_mutable` (`ra_hir` type_ref module, not under
`src/`, modelled from the spec's reference(with mutability flag)). -/
inductive Mutability where
  | shared
  | mut
deriving DecidableEq, Repr

def Mutability.from_mutable (m : Bool) : Mutability :=
  if m then .mut else .shared

/-- `ast::PrefixOp` (`ra_syntax/src/ast.rs`). -/
inductive PrefixOp where
  | deref
  | notOp
  | neg
deriving DecidableEq, Repr

/-- `ast::BinOp` (`ra_syntax/src/ast.rs`). -/
inductive BinOp where
  | booleanOr
  | booleanAnd
  | equalityTest
  | lesserEqualTest
  | greaterEqualTest
  | lesserTest
  | greaterTest
deriving DecidableEq, Repr

/-- HIR statements inside a block (`Statement` in `expr.rs`); expression
and pattern children are arena ids (naturals). -/
inductive Statement where
  | letStmt (pat : Nat) (type_ref : Option TypeRef) (initializer : Option Nat)
  | exprStmt (expr : Nat)
deriving DecidableEq, Repr

/-- A match arm (`MatchArm` in `expr.rs`). -/
structure MatchArm where
  pats : List Nat
  expr : Nat
deriving DecidableEq, Repr

/-- A struct-literal field (`StructLitField` in `expr.rs`). -/
structure StructLitField where
  name : Name
  expr : Nat
deriving DecidableEq, Repr

/-- The HIR expression variants (`Expr` in `expr.rs`); children are arena
ids. -/
inductive Expr where
  | missing
  | path (p : Path)
  | ifE (condition : Nat) (then_branch : Nat) (else_branch : Option Nat)
  | block (statements : List Statement) (tail : Option Nat)
  | loop (body : Nat)
  | whileE (condition : Nat) (body : Nat)
  | forE (iterable : Nat) (pat : Nat) (body : Nat)
  | call (callee : Nat) (args : List Nat)
  | methodCall (receiver : Nat) (method_name : Name) (args : List Nat)
  | matchE (expr : Nat) (arms : List MatchArm)
  | continueE
  | breakE (expr : Option Nat)
  | returnE (expr : Option Nat)
  | structLit (path : Option Path) (fields : List StructLitField) (spread : Option Nat)
  | field (expr : Nat) (name : Name)
  | tryE (expr : Nat)
  | cast (expr : Nat) (type_ref : TypeRef)
  | ref (expr : Nat) (mutability : Mutability)
  | unaryOp (expr : Nat) (op : Option PrefixOp)
  | binaryOp (lhs : Nat) (rhs : Nat) (op : Option BinOp)
  | lambda (args : List Nat) (arg_types : List (Option TypeRef)) (body : Nat)
deriving DecidableEq, Repr

/-- The HIR pattern variants (`Pat` in `expr.rs`). -/
inductive Pat where
  | missing
  | bind (name : Name)
  | tupleStruct (path : Option Path) (args : List Nat)
deriving DecidableEq, Repr

mutual
/-- The concrete-syntax expression nodes, by the accessors `collect_expr`
reads (`ast::Expr` and friends); every node carries the pointer
`LocalSyntaxPtr::new(node.syntax())` computes for it.  `Option` fields
are accessors that may find no child; `List` fields are child
sequences.  An `if` node carries its `Block` children in order
(`then_branch()`/`else_branch()` are `blocks().nth(0)`/`nth(1)` in
`ra_syntax/src/ast.rs`). -/
inductive AstExpr where
  | ifExpr (ptr : LocalSyntaxPtr) (condition : Option AstCondition) (blocks : List AstBlock)
  | blockExpr (ptr : LocalSyntaxPtr) (block : Option AstBlock)
  | loopExpr (ptr : LocalSyntaxPtr) (loop_body : Option AstBlock)
  | whileExpr (ptr : LocalSyntaxPtr) (condition : Option AstCondition) (loop_body : Option AstBlock)
  | forExpr (ptr : LocalSyntaxPtr) (iterable : Option AstExpr) (pat : Option AstPat)
      (loop_body : Option AstBlock)
  | callExpr (ptr : LocalSyntaxPtr) (callee : Option AstExpr) (arg_list : Option (List AstExpr))
  | methodCallExpr (ptr : LocalSyntaxPtr) (receiver : Option AstExpr)
      (arg_list : Option (List AstExpr)) (name_ref : Option NameRef)
  | matchExpr (ptr : LocalSyntaxPtr) (expr : Option AstExpr)
      (match_arm_list : Option (List AstMatchArm))
  | pathExpr (ptr : LocalSyntaxPtr) (path : Option AstPath)
  | continueExpr (ptr : LocalSyntaxPtr)
  | breakExpr (ptr : LocalSyntaxPtr) (expr : Option AstExpr)
  | parenExpr (ptr : LocalSyntaxPtr) (expr : Option AstExpr)
  | returnExpr (ptr : LocalSyntaxPtr) (expr : Option AstExpr)
  | structLit (ptr : LocalSyntaxPtr) (path : Option AstPath)
      (named_field_list : Option (List AstNamedField)) (spread : Option AstExpr)
  | fieldExpr (ptr : LocalSyntaxPtr) (expr : Option AstExpr) (name_ref : Option NameRef)
  | tryExpr (ptr : LocalSyntaxPtr) (expr : Option AstExpr)
  | castExpr (ptr : LocalSyntaxPtr) (expr : Option AstExpr) (type_ref : Option AstTypeRef)
  | refExpr (ptr : LocalSyntaxPtr) (expr : Option AstExpr) (is_mut : Bool)
  | prefixExpr (ptr : LocalSyntaxPtr) (expr : Option AstExpr) (op : Option PrefixOp)
  | lambdaExpr (ptr : LocalSyntaxPtr) (param_list : Option (List AstParam))
      (body : Option AstExpr)
  | binExpr (ptr : LocalSyntaxPtr) (lhs : Option AstExpr) (rhs : Option AstExpr)
      (op : Option BinOp)
  | labelExpr (ptr : LocalSyntaxPtr)
  | indexExpr (ptr : LocalSyntaxPtr)
  | tupleExpr (ptr : LocalSyntaxPtr)
  | arrayExpr (ptr : LocalSyntaxPtr)
  | rangeExpr (ptr : LocalSyntaxPtr)
  | literal (ptr : LocalSyntaxPtr)
/-- `ast::Condition`: an optional pattern (`if let`/`while let`) and an
optional expression. -/
inductive AstCondition where
  | mk (pat : Option AstPat) (expr : Option AstExpr)
/-- `ast::Block`: statements and the optional tail expression. -/
inductive AstBlock where
  | mk (ptr : LocalSyntaxPtr) (statements : List AstStmt) (expr : Option AstExpr)
/-- `ast::Stmt`. -/
inductive AstStmt where
  | letStmt (pat : Option AstPat) (type_ref : Option AstTypeRef) (initializer : Option AstExpr)
  | exprStmt (expr : Option AstExpr)
/-- `ast::MatchArm`: patterns and the arm expression. -/
inductive AstMatchArm where
  | mk (pats : List AstPat) (expr : Option AstExpr)
/-- `ast::NamedField`: an optional name reference and an optional
expression (absent expression plus present name is the field-init
shorthand). -/
inductive AstNamedField where
  | mk (name_ref : Option NameRef) (expr : Option AstExpr)
/-- `ast::Param`: an optional pattern and an optional type. -/
inductive AstParam where
  | mk (pat : Option AstPat) (type_ref : Option AstTypeRef)
/-- The concrete-syntax pattern nodes `collect_pat` distinguishes. -/
inductive AstPat where
  | bindPat (ptr : LocalSyntaxPtr) (name : Option Name)
  | tupleStructPat (ptr : LocalSyntaxPtr) (path : Option AstPath) (args : List AstPat)
  | otherPat (ptr : LocalSyntaxPtr)
end

def AstCondition.pat : AstCondition → Option AstPat
  | .mk p _ => p

def AstCondition.expr : AstCondition → Option AstExpr
  | .mk _ e => e

/-- The lowering state (`ExprCollector`): the two arenas (lists indexed
by dense ids) and the four syntax maps.  The hash maps are association
lists where an insert prepends, so a later insert for the same key
shadows the earlier one, as `FxHashMap::insert`/`ArenaMap::insert` do. -/
structure ExprCollector where
  exprs : List Expr
  pats : List Pat
  expr_syntax_mapping : List (LocalSyntaxPtr × Nat)
  expr_syntax_mapping_back : List (Nat × LocalSyntaxPtr)
  pat_syntax_mapping : List (LocalSyntaxPtr × Nat)
  pat_syntax_mapping_back : List (Nat × LocalSyntaxPtr)
deriving DecidableEq, Repr

def ExprCollector.new : ExprCollector := ⟨[], [], [], [], [], []⟩

/-- `self.exprs.alloc(e)`: arena allocation without any map entry. -/
def allocExprRaw (e : Expr) (s : ExprCollector) : Nat × ExprCollector :=
  (s.exprs.length, { s with exprs := s.exprs ++ [e] })

/-- `ExprCollector::alloc_expr`: allocate and record both map
directions for the node's pointer. -/
def allocExpr (e : Expr) (p : LocalSyntaxPtr) (s : ExprCollector) : Nat × ExprCollector :=
  (s.exprs.length,
   { s with
     exprs := s.exprs ++ [e],
     expr_syntax_mapping := (p, s.exprs.length) :: s.expr_syntax_mapping,
     expr_syntax_mapping_back := (s.exprs.length, p) :: s.expr_syntax_mapping_back })

/-- `self.pats.alloc(p)`: arena allocation without any map entry. -/
def allocPatRaw (p : Pat) (s : ExprCollector) : Nat × ExprCollector :=
  (s.pats.length, { s with pats := s.pats ++ [p] })

/-- `ExprCollector::alloc_pat`. -/
def allocPat (p : Pat) (ptr : LocalSyntaxPtr) (s : ExprCollector) : Nat × ExprCollector :=
  (s.pats.length,
   { s with
     pats := s.pats ++ [p],
     pat_syntax_mapping := (ptr, s.pats.length) :: s.pat_syntax_mapping,
     pat_syntax_mapping_back := (s.pats.length, ptr) :: s.pat_syntax_mapping_back })

/-- `ExprCollector::empty_block`: a synthesized empty block, allocated
with no syntax pointer. -/
def emptyBlock (s : ExprCollector) : Nat × ExprCollector :=
  allocExprRaw (.block [] none) s

mutual
/-- `ExprCollector::collect_expr`, arm by arm.  `collect_expr_opt(None)`
and the placeholder allocations are inlined as the direct
`exprs.alloc(Missing)` they evaluate to. -/
def collectExpr : AstExpr → ExprCollector → Nat × ExprCollector
  | .ifExpr ptr cond blocks, s =>
    match cond with
    | some (.mk (some pat) condExpr) =>
      let r1 := collectPat pat s
      let r2 := collectExprOpt condExpr r1.2
      let r3 := collectBlockAt0 blocks r2.2
      let r4 := collectBlockAt1OrEmpty blocks r3.2
      let r5 := allocPatRaw .missing r4.2
      allocExpr (.matchE r2.1 [⟨[r1.1], r3.1⟩, ⟨[r5.1], r4.1⟩]) ptr r5.2
    | some (.mk none condExpr) =>
      let r1 := collectExprOpt condExpr s
      let r2 := collectBlockAt0 blocks r1.2
      let r3 := collectBlockAt1Map blocks r2.2
      allocExpr (.ifE r1.1 r2.1 r3.1) ptr r3.2
    | none =>
      let r1 := allocExprRaw .missing s
      let r2 := collectBlockAt0 blocks r1.2
      let r3 := collectBlockAt1Map blocks r2.2
      allocExpr (.ifE r1.1 r2.1 r3.1) ptr r3.2
  | .blockExpr _ block, s => collectBlockOpt block s
  | .loopExpr ptr body, s =>
    let r := collectBlockOpt body s
    allocExpr (.loop r.1) ptr r.2
  | .whileExpr ptr cond body, s =>
    match cond with
    | some (.mk (some _) _) => allocExpr .missing ptr s
    | some (.mk none condExpr) =>
      let r1 := collectExprOpt condExpr s
      let r2 := collectBlockOpt body r1.2
      allocExpr (.whileE r1.1 r2.1) ptr r2.2
    | none =>
      let r1 := allocExprRaw .missing s
      let r2 := collectBlockOpt body r1.2
      allocExpr (.whileE r1.1 r2.1) ptr r2.2
  | .forExpr ptr iterable pat body, s =>
    let r1 := collectExprOpt iterable s
    let r2 := collectPatOpt pat r1.2
    let r3 := collectBlockOpt body r2.2
    allocExpr (.forE r1.1 r2.1 r3.1) ptr r3.2
  | .callExpr ptr callee argList, s =>
    let r1 := collectExprOpt callee s
    match argList with
    | some l =>
      let r2 := collectExprList l r1.2
      allocExpr (.call r1.1 r2.1) ptr r2.2
    | none => allocExpr (.call r1.1 []) ptr r1.2
  | .methodCallExpr ptr receiver argList nameRef, s =>
    let r1 := collectExprOpt receiver s
    let nm := match nameRef with | some nr => nr.as_name | none => Name.missing
    match argList with
    | some l =>
      let r2 := collectExprList l r1.2
      allocExpr (.methodCall r1.1 nm r2.1) ptr r2.2
    | none => allocExpr (.methodCall r1.1 nm []) ptr r1.2
  | .matchExpr ptr expr armList, s =>
    let r1 := collectExprOpt expr s
    match armList with
    | some arms =>
      let r2 := collectArmList arms r1.2
      allocExpr (.matchE r1.1 r2.1) ptr r2.2
    | none => allocExpr (.matchE r1.1 []) ptr r1.2
  | .pathExpr ptr path, s =>
    let e := match path with
      | some p =>
        match Path.from_ast p with
        | some pp => Expr.path pp
        | none => Expr.missing
      | none => Expr.missing
    allocExpr e ptr s
  | .continueExpr ptr, s => allocExpr .continueE ptr s
  | .breakExpr ptr expr, s =>
    let r := collectExprMapOpt expr s
    allocExpr (.breakE r.1) ptr r.2
  | .parenExpr ptr inner, s =>
    let r := collectExprOpt inner s
    (r.1, { r.2 with expr_syntax_mapping := (ptr, r.1) :: r.2.expr_syntax_mapping })
  | .returnExpr ptr expr, s =>
    let r := collectExprMapOpt expr s
    allocExpr (.returnE r.1) ptr r.2
  | .structLit ptr path nfl spread, s =>
    let pp := path.bind Path.from_ast
    match nfl with
    | some fields =>
      let r1 := collectFieldList fields s
      let r2 := collectExprMapOpt spread r1.2
      allocExpr (.structLit pp r1.1 r2.1) ptr r2.2
    | none =>
      let r2 := collectExprMapOpt spread s
      allocExpr (.structLit pp [] r2.1) ptr r2.2
  | .fieldExpr ptr expr nameRef, s =>
    let r := collectExprOpt expr s
    let nm := match nameRef with | some nr => nr.as_name | none => Name.missing
    allocExpr (.field r.1 nm) ptr r.2
  | .tryExpr ptr expr, s =>
    let r := collectExprOpt expr s
    allocExpr (.tryE r.1) ptr r.2
  | .castExpr ptr expr typeRef, s =>
    let r := collectExprOpt expr s
    allocExpr (.cast r.1 (TypeRef.from_ast_opt typeRef)) ptr r.2
  | .refExpr ptr expr isMut, s =>
    let r := collectExprOpt expr s
    allocExpr (.ref r.1 (Mutability.from_mutable isMut)) ptr r.2
  | .prefixExpr ptr expr op, s =>
    let r := collectExprOpt expr s
    allocExpr (.unaryOp r.1 op) ptr r.2
  | .lambdaExpr ptr paramList body, s =>
    match paramList with
    | some params =>
      let r1 := collectParamList params s
      let r2 := collectExprOpt body r1.2
      allocExpr (.lambda r1.1.1 r1.1.2 r2.1) ptr r2.2
    | none =>
      let r2 := collectExprOpt body s
      allocExpr (.lambda [] [] r2.1) ptr r2.2
  | .binExpr ptr lhs rhs op, s =>
    let r1 := collectExprOpt lhs s
    let r2 := collectExprOpt rhs r1.2
    allocExpr (.binaryOp r1.1 r2.1 op) ptr r2.2
  | .labelExpr ptr, s => allocExpr .missing ptr s
  | .indexExpr ptr, s => allocExpr .missing ptr s
  | .tupleExpr ptr, s => allocExpr .missing ptr s
  | .arrayExpr ptr, s => allocExpr .missing ptr s
  | .rangeExpr ptr, s => allocExpr .missing ptr s
  | .literal ptr, s => allocExpr .missing ptr s
/-- `ExprCollector::collect_expr_opt`. -/
def collectExprOpt : Option AstExpr → ExprCollector → Nat × ExprCollector
  | some e, s => collectExpr e s
  | none, s => allocExprRaw .missing s
/-- `opt.map(|e| self.collect_expr(e))`. -/
def collectExprMapOpt : Option AstExpr → ExprCollector → Option Nat × ExprCollector
  | some e, s =>
    let r := collectExpr e s
    (some r.1, r.2)
  | none, s => (none, s)
/-- `iter.map(|e| self.collect_expr(e)).collect()`. -/
def collectExprList : List AstExpr → ExprCollector → List Nat × ExprCollector
  | [], s => ([], s)
  | e :: es, s =>
    let r := collectExpr e s
    let rs := collectExprList es r.2
    (r.1 :: rs.1, rs.2)
/-- `ExprCollector::collect_block`. -/
def collectBlock : AstBlock → ExprCollector → Nat × ExprCollector
  | .mk ptr stmts tail, s =>
    let r1 := collectStmtList stmts s
    let r2 := collectExprMapOpt tail r1.2
    allocExpr (.block r1.1 r2.1) ptr r2.2
/-- `ExprCollector::collect_block_opt`. -/
def collectBlockOpt : Option AstBlock → ExprCollector → Nat × ExprCollector
  | some b, s => collectBlock b s
  | none, s => allocExprRaw .missing s
/-- `collect_block_opt(e.then_branch())` with
`then_branch() = blocks().nth(0)`. -/
def collectBlockAt0 : List AstBlock → ExprCollector → Nat × ExprCollector
  | b :: _, s => collectBlock b s
  | [], s => allocExprRaw .missing s
/-- `e.else_branch().map(collect_block).unwrap_or_else(empty_block)` with
`else_branch() = blocks().nth(1)`. -/
def collectBlockAt1OrEmpty : List AstBlock → ExprCollector → Nat × ExprCollector
  | _ :: b :: _, s => collectBlock b s
  | _, s => emptyBlock s
/-- `e.else_branch().map(collect_block)`. -/
def collectBlockAt1Map : List AstBlock → ExprCollector → Option Nat × ExprCollector
  | _ :: b :: _, s =>
    let r := collectBlock b s
    (some r.1, r.2)
  | _, s => (none, s)
/-- The statement loop of `collect_block`. -/
def collectStmtList : List AstStmt → ExprCollector → List Statement × ExprCollector
  | [], s => ([], s)
  | .letStmt pat typeRef init :: ss, s =>
    let r1 := collectPatOpt pat s
    let r2 := collectExprMapOpt init r1.2
    let rs := collectStmtList ss r2.2
    (Statement.letStmt r1.1 (typeRef.map TypeRef.from_ast) r2.1 :: rs.1, rs.2)
  | .exprStmt e :: ss, s =>
    let r := collectExprOpt e s
    let rs := collectStmtList ss r.2
    (Statement.exprStmt r.1 :: rs.1, rs.2)
/-- The arm loop of the `MatchExpr` arm. -/
def collectArmList : List AstMatchArm → ExprCollector → List MatchArm × ExprCollector
  | [], s => ([], s)
  | .mk pats expr :: arms, s =>
    let r1 := collectPatList pats s
    let r2 := collectExprOpt expr r1.2
    let rs := collectArmList arms r2.2
    (MatchArm.mk r1.1 r2.1 :: rs.1, rs.2)
/-- The field loop of the `StructLit` arm, including the field-init
shorthand (a synthesized path expression mapped, in both directions, to
the name-reference token's pointer). -/
def collectFieldList : List AstNamedField → ExprCollector → List StructLitField × ExprCollector
  | [], s => ([], s)
  | .mk nameRef fexpr :: fs, s =>
    let nm := match nameRef with | some nr => nr.as_name | none => Name.missing
    let r1 :=
      match fexpr, nameRef with
      | some e, _ => collectExpr e s
      | none, some nr =>
        (s.exprs.length,
         { s with
           exprs := s.exprs ++ [Expr.path (Path.from_name_ref nr)],
           expr_syntax_mapping := (nr.ptr, s.exprs.length) :: s.expr_syntax_mapping,
           expr_syntax_mapping_back := (s.exprs.length, nr.ptr) :: s.expr_syntax_mapping_back })
      | none, none => allocExprRaw .missing s
    let rs := collectFieldList fs r1.2
    (StructLitField.mk nm r1.1 :: rs.1, rs.2)
/-- `ExprCollector::collect_pat`. -/
def collectPat : AstPat → ExprCollector → Nat × ExprCollector
  | .bindPat ptr name, s =>
    let nm := match name with | some n => n | none => Name.missing
    allocPat (.bind nm) ptr s
  | .tupleStructPat ptr path args, s =>
    let r := collectPatList args s
    allocPat (.tupleStruct (path.bind Path.from_ast) r.1) ptr r.2
  | .otherPat ptr, s => allocPat .missing ptr s
/-- `ExprCollector::collect_pat_opt`. -/
def collectPatOpt : Option AstPat → ExprCollector → Nat × ExprCollector
  | some p, s => collectPat p s
  | none, s => allocPatRaw .missing s
/-- `arm.pats().map(|p| self.collect_pat(p)).collect()`. -/
def collectPatList : List AstPat → ExprCollector → List Nat × ExprCollector
  | [], s => ([], s)
  | p :: ps, s =>
    let r := collectPat p s
    let rs := collectPatList ps r.2
    (r.1 :: rs.1, rs.2)
/-- The parameter loop of the `LambdaExpr` arm: collected patterns and
the optional per-parameter type annotations. -/
def collectParamList : List AstParam → ExprCollector →
    (List Nat × List (Option TypeRef)) × ExprCollector
  | [], s => (([], []), s)
  | .mk pat typeRef :: ps, s =>
    let r1 := collectPatOpt pat s
    let rs := collectParamList ps r1.2
    ((r1.1 :: rs.1.1, typeRef.map TypeRef.from_ast :: rs.1.2), rs.2)
end

/-- `Body`: the arenas, the argument patterns and the body expression. -/
structure Body where
  exprs : List Expr
  pats : List Pat
  args : List Nat
  body_expr : Nat
deriving DecidableEq, Repr

/-- `BodySyntaxMapping`: a body plus the four syntax maps. -/
structure BodySyntaxMapping where
  body : Body
  expr_syntax_mapping : List (LocalSyntaxPtr × Nat)
  expr_syntax_mapping_back : List (Nat × LocalSyntaxPtr)
  pat_syntax_mapping : List (LocalSyntaxPtr × Nat)
  pat_syntax_mapping_back : List (Nat × LocalSyntaxPtr)
deriving DecidableEq, Repr

/-- `BodySyntaxMapping::syntax_expr`. -/
def BodySyntaxMapping.syntaxExpr (m : BodySyntaxMapping) (p : LocalSyntaxPtr) : Option Nat :=
  m.expr_syntax_mapping.lookup p

/-- `BodySyntaxMapping::expr_syntax`. -/
def BodySyntaxMapping.exprSyntaxPtr (m : BodySyntaxMapping) (id : Nat) : Option LocalSyntaxPtr :=
  m.expr_syntax_mapping_back.lookup id

/-- `BodySyntaxMapping::syntax_pat`. -/
def BodySyntaxMapping.syntaxPat (m : BodySyntaxMapping) (p : LocalSyntaxPtr) : Option Nat :=
  m.pat_syntax_mapping.lookup p

/-- `BodySyntaxMapping::pat_syntax`. -/
def BodySyntaxMapping.patSyntaxPtr (m : BodySyntaxMapping) (id : Nat) : Option LocalSyntaxPtr :=
  m.pat_syntax_mapping_back.lookup id

/-- `ast::SelfParam`, reduced to the accessor used: the pointer of the
`self` keyword token (`self_kw().expect(..)`). -/
structure AstSelfParam where
  self_kw : LocalSyntaxPtr
deriving DecidableEq, Repr

/-- `ast::ParamList`. -/
structure AstParamList where
  self_param : Option AstSelfParam
  params : List AstParam

/-- `ast::FnDef`, reduced to the accessors `collect_fn_body_syntax`
uses. -/
structure AstFnDef where
  param_list : Option AstParamList
  body : Option AstBlock

/-- The parameter loop of `collect_fn_body_syntax`: parameters with no
pattern are skipped (`continue`). -/
def collectFnParams : List AstParam → ExprCollector → List Nat × ExprCollector
  | [], s => ([], s)
  | .mk none _ :: ps, s => collectFnParams ps s
  | .mk (some pat) _ :: ps, s =>
    let r := collectPat pat s
    let rs := collectFnParams ps r.2
    (r.1 :: rs.1, rs.2)

/-- `collect_fn_body_syntax`: the implicit `self` binding first (pointed
at the `self` keyword), then the parameter patterns, then the body. -/
def collectFnBodySyntaxMapping (node : AstFnDef) : BodySyntaxMapping :=
  let s0 := ExprCollector.new
  let ra : List Nat × ExprCollector :=
    match node.param_list with
    | some pl =>
      let rs : List Nat × ExprCollector :=
        match pl.self_param with
        | some sp =>
          let r := allocPat (Pat.bind Name.self_param) sp.self_kw s0
          ([r.1], r.2)
        | none => ([], s0)
      let rp := collectFnParams pl.params rs.2
      (rs.1 ++ rp.1, rp.2)
    | none => ([], s0)
  let rb := collectBlockOpt node.body ra.2
  { body := ⟨rb.2.exprs, rb.2.pats, ra.1, rb.1⟩,
    expr_syntax_mapping := rb.2.expr_syntax_mapping,
    expr_syntax_mapping_back := rb.2.expr_syntax_mapping_back,
    pat_syntax_mapping := rb.2.pat_syntax_mapping,
    pat_syntax_mapping_back := rb.2.pat_syntax_mapping_back }

mutual
/-- The pattern-map keys a pattern fragment inserts, in insertion
order. -/
def patPtrs : AstPat → List LocalSyntaxPtr
  | .bindPat ptr _ => [ptr]
  | .tupleStructPat ptr _ args => patListPtrs args ++ [ptr]
  | .otherPat ptr => [ptr]
def patListPtrs : List AstPat → List LocalSyntaxPtr
  | [] => []
  | p :: ps => patPtrs p ++ patListPtrs ps
end

def patOptPtrs : Option AstPat → List LocalSyntaxPtr
  | some p => patPtrs p
  | none => []

/-- Concatenation of (expression-map keys, pattern-map keys) pairs. -/
def pcat (a b : List LocalSyntaxPtr × List LocalSyntaxPtr) :
    List LocalSyntaxPtr × List LocalSyntaxPtr :=
  (a.1 ++ b.1, a.2 ++ b.2)

mutual
/-- The (expression-map, pattern-map) keys an expression fragment
inserts, in insertion order: mirrors the allocations of
`collect_expr` (a `BlockExpr` inserts no key of its own; a `ParenExpr`
inserts its own pointer forward-only; a shorthand struct field inserts
the name reference's pointer). -/
def exprPtrs : AstExpr → List LocalSyntaxPtr × List LocalSyntaxPtr
  | .ifExpr ptr cond blocks =>
    match cond with
    | some (.mk (some pat) condExpr) =>
      pcat (pcat (pcat (pcat ([], patPtrs pat) (exprOptPtrs condExpr))
        (blockAt0Ptrs blocks)) (blockAt1Ptrs blocks)) ([ptr], [])
    | some (.mk none condExpr) =>
      pcat (pcat (pcat (exprOptPtrs condExpr) (blockAt0Ptrs blocks))
        (blockAt1Ptrs blocks)) ([ptr], [])
    | none =>
      pcat (pcat (blockAt0Ptrs blocks) (blockAt1Ptrs blocks)) ([ptr], [])
  | .blockExpr _ block => blockOptPtrs block
  | .loopExpr ptr body => pcat (blockOptPtrs body) ([ptr], [])
  | .whileExpr ptr cond body =>
    match cond with
    | some (.mk (some _) _) => ([ptr], [])
    | some (.mk none condExpr) =>
      pcat (pcat (exprOptPtrs condExpr) (blockOptPtrs body)) ([ptr], [])
    | none => pcat (blockOptPtrs body) ([ptr], [])
  | .forExpr ptr iterable pat body =>
    pcat (pcat (pcat (exprOptPtrs iterable) ([], patOptPtrs pat))
      (blockOptPtrs body)) ([ptr], [])
  | .callExpr ptr callee argList =>
    match argList with
    | some l => pcat (pcat (exprOptPtrs callee) (exprListPtrs l)) ([ptr], [])
    | none => pcat (exprOptPtrs callee) ([ptr], [])
  | .methodCallExpr ptr receiver argList _ =>
    match argList with
    | some l => pcat (pcat (exprOptPtrs receiver) (exprListPtrs l)) ([ptr], [])
    | none => pcat (exprOptPtrs receiver) ([ptr], [])
  | .matchExpr ptr expr armList =>
    match armList with
    | some arms => pcat (pcat (exprOptPtrs expr) (armListPtrs arms)) ([ptr], [])
    | none => pcat (exprOptPtrs expr) ([ptr], [])
  | .pathExpr ptr _ => ([ptr], [])
  | .continueExpr ptr => ([ptr], [])
  | .breakExpr ptr expr => pcat (exprOptPtrs expr) ([ptr], [])
  | .parenExpr ptr inner => pcat (exprOptPtrs inner) ([ptr], [])
  | .returnExpr ptr expr => pcat (exprOptPtrs expr) ([ptr], [])
  | .structLit ptr _ nfl spread =>
    match nfl with
    | some fields => pcat (pcat (fieldListPtrs fields) (exprOptPtrs spread)) ([ptr], [])
    | none => pcat (exprOptPtrs spread) ([ptr], [])
  | .fieldExpr ptr expr _ => pcat (exprOptPtrs expr) ([ptr], [])
  | .tryExpr ptr expr => pcat (exprOptPtrs expr) ([ptr], [])
  | .castExpr ptr expr _ => pcat (exprOptPtrs expr) ([ptr], [])
  | .refExpr ptr expr _ => pcat (exprOptPtrs expr) ([ptr], [])
  | .prefixExpr ptr expr _ => pcat (exprOptPtrs expr) ([ptr], [])
  | .lambdaExpr ptr paramList body =>
    match paramList with
    | some params =>
      pcat (pcat ([], paramListPtrs params) (exprOptPtrs body)) ([ptr], [])
    | none => pcat (exprOptPtrs body) ([ptr], [])
  | .binExpr ptr lhs rhs _ =>
    pcat (pcat (exprOptPtrs lhs) (exprOptPtrs rhs)) ([ptr], [])
  | .labelExpr ptr => ([ptr], [])
  | .indexExpr ptr => ([ptr], [])
  | .tupleExpr ptr => ([ptr], [])
  | .arrayExpr ptr => ([ptr], [])
  | .rangeExpr ptr => ([ptr], [])
  | .literal ptr => ([ptr], [])
def exprOptPtrs : Option AstExpr → List LocalSyntaxPtr × List LocalSyntaxPtr
  | some e => exprPtrs e
  | none => ([], [])
def exprListPtrs : List AstExpr → List LocalSyntaxPtr × List LocalSyntaxPtr
  | [] => ([], [])
  | e :: es => pcat (exprPtrs e) (exprListPtrs es)
def blockPtrs : AstBlock → List LocalSyntaxPtr × List LocalSyntaxPtr
  | .mk ptr stmts tail =>
    pcat (pcat (stmtListPtrs stmts) (exprOptPtrs tail)) ([ptr], [])
def blockOptPtrs : Option AstBlock → List LocalSyntaxPtr × List LocalSyntaxPtr
  | some b => blockPtrs b
  | none => ([], [])
def blockAt0Ptrs : List AstBlock → List LocalSyntaxPtr × List LocalSyntaxPtr
  | b :: _ => blockPtrs b
  | [] => ([], [])
def blockAt1Ptrs : List AstBlock → List LocalSyntaxPtr × List LocalSyntaxPtr
  | _ :: b :: _ => blockPtrs b
  | _ => ([], [])
def stmtListPtrs : List AstStmt → List LocalSyntaxPtr × List LocalSyntaxPtr
  | [] => ([], [])
  | .letStmt pat _ init :: ss =>
    pcat (pcat (pcat ([], patOptPtrs pat) (exprOptPtrs init)) (stmtListPtrs ss)) ([], [])
  | .exprStmt e :: ss => pcat (exprOptPtrs e) (stmtListPtrs ss)
def armListPtrs : List AstMatchArm → List LocalSyntaxPtr × List LocalSyntaxPtr
  | [] => ([], [])
  | .mk pats expr :: arms =>
    pcat (pcat ([], patListPtrs pats) (exprOptPtrs expr)) (armListPtrs arms)
def fieldListPtrs : List AstNamedField → List LocalSyntaxPtr × List LocalSyntaxPtr
  | [] => ([], [])
  | .mk nameRef fexpr :: fs =>
    pcat (match fexpr, nameRef with
          | some e, _ => exprPtrs e
          | none, some nr => ([nr.ptr], [])
          | none, none => ([], []))
      (fieldListPtrs fs)
def paramListPtrs : List AstParam → List LocalSyntaxPtr
  | [] => []
  | .mk pat _ :: ps => patOptPtrs pat ++ paramListPtrs ps
end

/-- The pattern-map keys the parameter loop of `collect_fn_body_syntax`
inserts. -/
def fnParamsPtrs : List AstParam → List LocalSyntaxPtr
  | [] => []
  | .mk none _ :: ps => fnParamsPtrs ps
  | .mk (some p) _ :: ps => patPtrs p ++ fnParamsPtrs ps

/-- The (expression-map, pattern-map) keys lowering a whole function
inserts: the `self` keyword pointer, the parameter patterns' pointers,
then the body's pointers. -/
def fnPtrs (node : AstFnDef) : List LocalSyntaxPtr × List LocalSyntaxPtr :=
  let pl :=
    match node.param_list with
    | some pl =>
      (match pl.self_param with
       | some sp => [sp.self_kw]
       | none => []) ++ fnParamsPtrs pl.params
    | none => []
  ((blockOptPtrs node.body).1, pl ++ (blockOptPtrs node.body).2)

/-- The bidirectional-map invariant of a collector state: every
back-mapped id is forward-mapped to itself and is a valid arena index,
and every arena entry with no back-map entry is one of the synthesized
shapes (`Expr::Missing`, the synthesized empty block, `Pat::Missing`). -/
def MapsInv (s : ExprCollector) : Prop :=
  (∀ id p, s.expr_syntax_mapping_back.lookup id = some p →
     s.expr_syntax_mapping.lookup p = some id ∧ id < s.exprs.length) ∧
  (∀ id p, s.pat_syntax_mapping_back.lookup id = some p →
     s.pat_syntax_mapping.lookup p = some id ∧ id < s.pats.length) ∧
  (∀ id, id < s.exprs.length → s.expr_syntax_mapping_back.lookup id = none →
     s.exprs[id]? = some Expr.missing ∨ s.exprs[id]? = some (Expr.block [] none)) ∧
  (∀ id, id < s.pats.length → s.pat_syntax_mapping_back.lookup id = none →
     s.pats[id]? = some Pat.missing)

/-- State evolution of one collector run: arenas only grow (old entries
unchanged), both back maps only grow, forward entries are preserved, and
any new forward key is among the run's declared key lists. -/
def Extends (ep pp : List LocalSyntaxPtr) (s s2 : ExprCollector) : Prop :=
  s.exprs.length ≤ s2.exprs.length ∧
  s.pats.length ≤ s2.pats.length ∧
  (∀ id, id < s.exprs.length → s2.exprs[id]? = s.exprs[id]?) ∧
  (∀ id, id < s.pats.length → s2.pats[id]? = s.pats[id]?) ∧
  (∀ q, s2.expr_syntax_mapping.lookup q ≠ none →
     s.expr_syntax_mapping.lookup q ≠ none ∨ q ∈ ep) ∧
  (∀ q, s2.pat_syntax_mapping.lookup q ≠ none →
     s.pat_syntax_mapping.lookup q ≠ none ∨ q ∈ pp) ∧
  (∀ q v, s.expr_syntax_mapping.lookup q = some v →
     s2.expr_syntax_mapping.lookup q = some v) ∧
  (∀ q v, s.pat_syntax_mapping.lookup q = some v →
     s2.pat_syntax_mapping.lookup q = some v) ∧
  (∀ id v, s.expr_syntax_mapping_back.lookup id = some v →
     s2.expr_syntax_mapping_back.lookup id = some v) ∧
  (∀ id v, s.pat_syntax_mapping_back.lookup id = some v →
     s2.pat_syntax_mapping_back.lookup id = some v)

/-- A collector step is good for key lists `ep`/`pp` when, from any state
satisfying the invariant in which its keys are fresh and pairwise
distinct, it preserves the invariant and only extends the state by those
keys. -/
def GoodRun {A : Type} (ep pp : List LocalSyntaxPtr)
    (run : ExprCollector → A × ExprCollector) : Prop :=
  ∀ s, MapsInv s → ep.Nodup → pp.Nodup →
    (∀ q ∈ ep, s.expr_syntax_mapping.lookup q = none) →
    (∀ q ∈ pp, s.pat_syntax_mapping.lookup q = none) →
    MapsInv (run s).2 ∧ Extends ep pp s (run s).2

/-! # Part 4: impl-block lowering (`ra_hir/src/impl_block.rs`, `ra_syntax/src/ast.rs`) -/

/-- `ast::ImplBlock`: its direct type-node children, in source order
(`impl Trait for Type` has two, `impl Type` has one). -/
structure AstImplBlock where
  types : List AstTypeRef
deriving DecidableEq, Repr

/-- `ImplBlock::target`: the first and second type children. -/
def AstImplBlock.target (node : AstImplBlock) : Option AstTypeRef × Option AstTypeRef :=
  (node.types[0]?, node.types[1]?)

/-- `ImplBlock::target_type`: the sole type child, or with two children
the second one. -/
def AstImplBlock.targetType (node : AstImplBlock) : Option AstTypeRef :=
  match node.target with
  | (some t, none) => some t
  | (_, some t) => some t
  | _ => none

/-- `ImplBlock::target_trait`: the first type child when there are two. -/
def AstImplBlock.targetTrait (node : AstImplBlock) : Option AstTypeRef :=
  match node.target with
  | (some t, some _) => some t
  | _ => none

/-- `ImplData` target fields (the item lowering needs the def-interner
and is irrelevant to the target fields, so it is omitted). -/
structure ImplData where
  target_trait : Option TypeRef
  target_type : TypeRef
deriving DecidableEq, Repr

/-- `ImplData::from_ast`, target fields exactly as in the source: both
are computed from `node.target_type()` — the trait field never consults
`ImplBlock::target_trait`. -/
def ImplData.from_ast (node : AstImplBlock) : ImplData :=
  { target_trait := node.targetType.map TypeRef.from_ast,
    target_type := TypeRef.from_ast_opt node.targetType }

end Hir

/-! # Theorems -/

lemma depsOf_lt (g : CrateGraph) (hwf : GraphWF g) (x : Nat) :
    ∀ d ∈ depsOf g x, d.crate_id < g.arena.length := by
  intro d hd
  by_cases hx : x < g.arena.length
  · exact hwf x hx d hd
  · exfalso
    unfold depsOf at hd
    rw [List.getElem?_eq_none (by omega)] at hd
    simp at hd

lemma nodup_bounded_length (v : List Nat) (n : Nat) (hnd : v.Nodup)
    (hb : ∀ x ∈ v, x < n) : v.length ≤ n := by
  have h1 : v.toFinset ⊆ Finset.range n := by
    intro x hx
    exact Finset.mem_range.mpr (hb x (List.mem_toFinset.mp hx))
  have h2 := Finset.card_le_card h1
  rwa [List.toFinset_card_of_nodup hnd, Finset.card_range] at h2

lemma dfsStep_true_sound (g : CrateGraph) (target : Nat)
    (rec : Nat → List Nat → Bool × List Nat)
    (hrec : ∀ f v v2, rec f v = (true, v2) → Reaches g f target) :
    ∀ ds v v2, dfsStep target rec ds v = (true, v2) →
      ∃ d ∈ ds, d.crate_id = target ∨ Reaches g d.crate_id target := by
  intro ds
  induction ds with
  | nil => intro v v2 h; simp [dfsStep] at h
  | cons d ds ih =>
    intro v v2 h
    by_cases hdt : d.crate_id = target
    · exact ⟨d, List.mem_cons_self d ds, Or.inl hdt⟩
    · simp only [dfsStep, if_neg hdt] at h
      cases hr : rec d.crate_id v with
      | mk b v1 =>
        cases b with
        | true =>
          exact ⟨d, List.mem_cons_self d ds, Or.inr (hrec _ _ _ hr)⟩
        | false =>
          rw [hr] at h
          obtain ⟨d2, hd2, hp⟩ := ih v1 v2 h
          exact ⟨d2, List.mem_cons_of_mem d hd2, hp⟩

lemma dfsFind_true_sound (g : CrateGraph) (target : Nat) :
    ∀ fuel f v v2, dfsFind g target fuel f v = (true, v2) → Reaches g f target := by
  intro fuel
  induction fuel with
  | zero => intro f v v2 h; simp [dfsFind] at h
  | succ fuel ih =>
    intro f v v2 h
    by_cases hv : f ∈ v
    · simp [dfsFind, hv] at h
    · simp only [dfsFind, if_neg hv] at h
      obtain ⟨d, hd, hp⟩ := dfsStep_true_sound g target _ (fun f v v2 hr => ih f v v2 hr) _ _ _ h
      have hedge : Edge g f d.crate_id := ⟨d, hd, rfl⟩
      cases hp with
      | inl he => exact Relation.TransGen.single (he ▸ hedge)
      | inr hr => exact Relation.TransGen.head hedge hr

lemma dfsStep_false_inv (g : CrateGraph) (target n fuelPlus : Nat)
    (rec : Nat → List Nat → Bool × List Nat)
    (hrec : ∀ f v v2, f < n → (∀ x ∈ v, x < n) → v.Nodup → n + 1 ≤ fuelPlus + v.length →
      rec f v = (false, v2) →
      v ⊆ v2 ∧ v.length ≤ v2.length ∧ f ∈ v2 ∧ v2.Nodup ∧ (∀ x ∈ v2, x < n) ∧
      (∀ x ∈ v2, x ∉ v → ∀ d ∈ depsOf g x, d.crate_id ≠ target ∧ d.crate_id ∈ v2)) :
    ∀ ds v v2, (∀ d ∈ ds, d.crate_id < n) → (∀ x ∈ v, x < n) → v.Nodup →
      n + 1 ≤ fuelPlus + v.length →
      dfsStep target rec ds v = (false, v2) →
      v ⊆ v2 ∧ v.length ≤ v2.length ∧ v2.Nodup ∧ (∀ x ∈ v2, x < n) ∧
      (∀ d ∈ ds, d.crate_id ≠ target ∧ d.crate_id ∈ v2) ∧
      (∀ x ∈ v2, x ∉ v → ∀ d ∈ depsOf g x, d.crate_id ≠ target ∧ d.crate_id ∈ v2) := by
  intro ds
  induction ds with
  | nil =>
    intro v v2 _ hbv hnd _ h
    simp only [dfsStep] at h
    cases h
    exact ⟨List.Subset.refl v, le_refl _, hnd, hbv, by simp, fun x _ hxv => absurd ‹x ∈ v› hxv⟩
  | cons d ds ih =>
    intro v v2 hbds hbv hnd hfuel h
    by_cases hdt : d.crate_id = target
    · simp [dfsStep, hdt] at h
    · simp only [dfsStep, if_neg hdt] at h
      cases hr : rec d.crate_id v with
      | mk b v1 =>
        cases b with
        | true => rw [hr] at h; simp at h
        | false =>
          rw [hr] at h
          obtain ⟨hs1, hl1, hm1, hnd1, hb1, hc1⟩ :=
            hrec d.crate_id v v1 (hbds d (List.mem_cons_self d ds)) hbv hnd hfuel hr
          obtain ⟨hs2, hl2, hnd2, hb2, hds2, hc2⟩ :=
            ih v1 v2 (fun d2 hd2 => hbds d2 (List.mem_cons_of_mem d hd2)) hb1 hnd1
              (le_trans hfuel (by omega)) h
          refine ⟨List.Subset.trans hs1 hs2, le_trans hl1 hl2, hnd2, hb2, ?_, ?_⟩
          · intro d2 hd2
            rcases List.mem_cons.mp hd2 with rfl | hd2
            · exact ⟨hdt, hs2 hm1⟩
            · exact hds2 d2 hd2
          · intro x hx hxv d2 hd2
            by_cases hx1 : x ∈ v1
            · obtain ⟨hne, hmem⟩ := hc1 x hx1 hxv d2 hd2
              exact ⟨hne, hs2 hmem⟩
            · exact hc2 x hx hx1 d2 hd2

lemma dfsFind_false_inv (g : CrateGraph) (target : Nat) (hwf : GraphWF g) :
    ∀ fuel f v v2, f < g.arena.length → (∀ x ∈ v, x < g.arena.length) → v.Nodup →
      g.arena.length + 1 ≤ fuel + v.length →
      dfsFind g target fuel f v = (false, v2) →
      v ⊆ v2 ∧ v.length ≤ v2.length ∧ f ∈ v2 ∧ v2.Nodup ∧
      (∀ x ∈ v2, x < g.arena.length) ∧
      (∀ x ∈ v2, x ∉ v → ∀ d ∈ depsOf g x, d.crate_id ≠ target ∧ d.crate_id ∈ v2) := by
  intro fuel
  induction fuel with
  | zero =>
    intro f v v2 _ hbv hnd hfuel _
    have := nodup_bounded_length v g.arena.length hnd hbv
    omega
  | succ fuel ih =>
    intro f v v2 hf hbv hnd hfuel h
    by_cases hv : f ∈ v
    · simp only [dfsFind, if_pos hv] at h
      cases h
      exact ⟨List.Subset.refl v, le_refl _, hv, hnd, hbv,
        fun x _ hxv => absurd ‹x ∈ v› hxv⟩
    · simp only [dfsFind, if_neg hv] at h
      obtain ⟨hs, hl, hnd2, hb2, hds2, hc2⟩ :=
        dfsStep_false_inv g target g.arena.length fuel (dfsFind g target fuel)
          (fun f2 v2a v2b => ih f2 v2a v2b)
          (depsOf g f) (f :: v) v2 (depsOf_lt g hwf f)
          (by intro x hx; rcases List.mem_cons.mp hx with rfl | hx
              · exact hf
              · exact hbv x hx)
          (List.nodup_cons.mpr ⟨hv, hnd⟩)
          (by simp; omega) h
      refine ⟨fun x hx => hs (List.mem_cons_of_mem f hx), ?_, hs (List.mem_cons_self f v),
        hnd2, hb2, ?_⟩
      · simp at hl; omega
      · intro x hx hxv d hd
        by_cases hxf : x = f
        · subst hxf
          exact hds2 d hd
        · exact hc2 x hx (by simp [hxf, hxv]) d hd

lemma closed_no_reach (g : CrateGraph) (target : Nat) (S : List Nat)
    (hS : ∀ x ∈ S, ∀ d ∈ depsOf g x, d.crate_id ≠ target ∧ d.crate_id ∈ S) :
    ∀ a b, Reaches g a b → a ∈ S → b ∈ S ∧ b ≠ target := by
  intro a b h
  induction h with
  | single hr =>
    intro ha
    obtain ⟨d, hd, rfl⟩ := hr
    exact ((hS a ha d hd).symm.imp id fun hne => hne)
  | tail _ hr ih =>
    intro ha
    obtain ⟨hb, _⟩ := ih ha
    obtain ⟨d, hd, rfl⟩ := hr
    exact ((hS _ hb d hd).symm.imp id fun hne => hne)

/-- C4: `add_dep(from, name, to)` fails fatally exactly when `to` can
already reach `from` through the existing dependency edges (the check is
the visited-set depth-first search `dfs_find` starting at `to`); when it
does not fail it appends `Dependency { name, crate_id: to }` to `from`'s
dependency list and changes nothing else. -/
theorem add_dep_fails_iff_reach (g : CrateGraph) (frm nm toCrate)
    (hwf : GraphWF g) (hf : frm < g.arena.length) (ht : toCrate < g.arena.length) :
    (addDep g frm nm toCrate = none ↔ Reaches g toCrate frm)
    ∧ (∀ g2, addDep g frm nm toCrate = some g2 →
        ∃ cd, g.arena[frm]? = some cd ∧
          g2.arena = g.arena.set frm ⟨cd.file_id, cd.dependencies ++ [⟨toCrate, nm⟩]⟩) := by
  constructor
  · constructor
    · intro hnone
      by_cases hb : (dfsFind g frm (g.arena.length + 1) toCrate []).1 = true
      · have h2 : dfsFind g frm (g.arena.length + 1) toCrate [] =
            (true, (dfsFind g frm (g.arena.length + 1) toCrate []).2) := by
          rw [← hb]
        exact dfsFind_true_sound g frm _ _ _ _ h2
      · exfalso
        simp only [addDep] at hnone
        rw [if_neg hb] at hnone
        rw [List.getElem?_eq_getElem hf] at hnone
        simp at hnone
    · intro hreach
      by_cases hb : (dfsFind g frm (g.arena.length + 1) toCrate []).1 = true
      · simp [addDep, hb]
      · exfalso
        cases hres : dfsFind g frm (g.arena.length + 1) toCrate [] with
        | mk b v2 =>
          have hbf : b = false := by
            rw [hres] at hb; simpa using hb
          subst hbf
          obtain ⟨_, _, hto, _, _, hcl⟩ :=
            dfsFind_false_inv g frm hwf (g.arena.length + 1) toCrate [] v2 ht
              (by simp) (by simp) (by simp) hres
          exact (closed_no_reach g frm v2 (fun x hx => hcl x hx (by simp))
            toCrate frm hreach hto).2 rfl
  · intro g2 hsome
    simp only [addDep] at hsome
    by_cases hb : (dfsFind g frm (g.arena.length + 1) toCrate []).1 = true
    · rw [if_pos hb] at hsome; cases hsome
    · rw [if_neg hb] at hsome
      cases hget : g.arena[frm]? with
      | none => rw [hget] at hsome; cases hsome
      | some cd =>
        rw [hget] at hsome
        refine ⟨cd, rfl, ?_⟩
        cases hsome
        rfl

/-- C4 witness: a two-crate graph with the single edge `0 → 1`; adding
`1 → 0` is rejected exactly because crate 0 reaches crate 1. -/
theorem add_dep_fails_iff_reach_witness :
    (addDep ⟨[⟨⟨1⟩, [⟨1, "b"⟩]⟩, ⟨⟨2⟩, []⟩]⟩ 1 "x" 0 = none ↔
      Reaches ⟨[⟨⟨1⟩, [⟨1, "b"⟩]⟩, ⟨⟨2⟩, []⟩]⟩ 0 1)
    ∧ (∀ g2, addDep ⟨[⟨⟨1⟩, [⟨1, "b"⟩]⟩, ⟨⟨2⟩, []⟩]⟩ 1 "x" 0 = some g2 →
        ∃ cd, (⟨[⟨⟨1⟩, [⟨1, "b"⟩]⟩, ⟨⟨2⟩, []⟩]⟩ : CrateGraph).arena[1]? = some cd ∧
          g2.arena = (⟨[⟨⟨1⟩, [⟨1, "b"⟩]⟩, ⟨⟨2⟩, []⟩]⟩ : CrateGraph).arena.set 1
            ⟨cd.file_id, cd.dependencies ++ [⟨0, "x"⟩]⟩) :=
  add_dep_fails_iff_reach ⟨[⟨⟨1⟩, [⟨1, "b"⟩]⟩, ⟨⟨2⟩, []⟩]⟩ 1 "x" 0
    (by unfold GraphWF; decide) (by decide) (by decide)

/-- C1: the acyclicity claim fails on the code: `dfs_find` only detects
`target` when it is hit by an edge, so `add_dep(c, name, c)` on a crate
with no prior self edge is accepted and creates a one-edge cycle, with no
failure and a mutated graph.  Here crate 0 is fresh and `add_dep 0 0`
succeeds and leaves `0 → 0` in the graph. -/
theorem add_dep_accepts_self_loop :
    addDep (addCrateRoot emptyCrateGraph ⟨1⟩).2 0 "self" 0 =
      some ⟨[⟨⟨1⟩, [⟨0, "self"⟩]⟩]⟩
    ∧ Reaches ⟨[⟨⟨1⟩, [⟨0, "self"⟩]⟩]⟩ 0 0 :=
  ⟨by decide, Relation.TransGen.single ⟨⟨0, "self"⟩, by decide, rfl⟩⟩

lemma mem_subtreesOfList {a : SyntaxTree} :
    ∀ {cs : List SyntaxTree}, a ∈ subtreesOfList cs ↔ ∃ c ∈ cs, a ∈ subtreesOf c := by
  intro cs
  induction cs with
  | nil => simp [subtreesOfList]
  | cons c cs ih =>
    simp only [subtreesOfList, List.mem_append, ih]
    constructor
    · rintro (h | ⟨c2, hc2, h⟩)
      · exact ⟨c, by simp, h⟩
      · exact ⟨c2, by simp [hc2], h⟩
    · rintro ⟨c2, hc2, h⟩
      rcases List.mem_cons.mp hc2 with rfl | hc2
      · exact Or.inl h
      · exact Or.inr ⟨c2, hc2, h⟩

lemma mem_subtreesOf_node {a : SyntaxTree} {k r cs} :
    a ∈ subtreesOf (.node k r cs) ↔ a = .node k r cs ∨ ∃ c ∈ cs, a ∈ subtreesOf c := by
  simp [subtreesOf, mem_subtreesOfList]

lemma self_mem_subtreesOf (t : SyntaxTree) : t ∈ subtreesOf t := by
  cases t with
  | node k r cs => exact List.mem_cons_self _ _

lemma wftree_child {k r cs} (h : WFTree (.node k r cs)) : ∀ c ∈ cs, WFTree c := by
  cases h with
  | mk _ _ _ _ _ _ hrec => exact hrec

lemma wftree_range_containment {t : SyntaxTree} (hwf : WFTree t) :
    ∀ n ∈ subtreesOf t, t.rangeOf.lo ≤ n.rangeOf.lo ∧ n.rangeOf.hi ≤ t.rangeOf.hi := by
  induction hwf with
  | mk k r cs hord hsub hdisj hrec ih =>
    intro n hn
    rcases mem_subtreesOf_node.mp hn with rfl | ⟨c, hc, hnc⟩
    · exact ⟨le_refl _, le_refl _⟩
    · have h1 := hsub c hc
      have h2 := ih c hc n hnc
      exact ⟨le_trans h1.1 h2.1, le_trans h2.2 h1.2⟩

lemma resolveIn_eq_resolve (p : LocalSyntaxPtr) :
    ∀ (pre post : List SyntaxTree) (c : SyntaxTree),
      (pre ++ c :: post).Pairwise (fun a b => a.rangeOf.hi ≤ b.rangeOf.lo) →
      p.range.lo < p.range.hi →
      isSubrange p.range c.rangeOf = true →
      resolveIn p (pre ++ c :: post) = resolve p c := by
  intro pre
  induction pre with
  | nil =>
    intro post c _ _ hsub
    simp [resolveIn, hsub]
  | cons d pre ih =>
    intro post c hpw hne hsub
    have hdc : d.rangeOf.hi ≤ c.rangeOf.lo :=
      (List.pairwise_cons.mp hpw).1 c (by simp)
    have hnd : ¬ (isSubrange p.range d.rangeOf = true) := by
      unfold isSubrange at hsub ⊢
      simp only [Bool.and_eq_true, decide_eq_true_eq] at hsub ⊢
      omega
    simp only [List.cons_append, resolveIn, if_neg hnd]
    exact ih post c (List.pairwise_cons.mp hpw).2 hne hsub

/-- C3 counterexample: the claim "resolve(new(n), T) == n for every node n
of every tree T" fails when a proper ancestor of n carries the same range
and kind: resolution stops at the topmost match.  Here the root and its
only child share kind 5 and range `[0,2)`, and resolving the child's
pointer returns the root, not the child. -/
theorem resolve_roundtrip_counterexample :
    (SyntaxTree.node 5 ⟨0, 2⟩ []) ∈
      subtreesOf (.node 5 ⟨0, 2⟩ [.node 5 ⟨0, 2⟩ []])
    ∧ resolve (LocalSyntaxPtr.new (.node 5 ⟨0, 2⟩ []))
        (.node 5 ⟨0, 2⟩ [.node 5 ⟨0, 2⟩ []]) ≠
      some (.node 5 ⟨0, 2⟩ []) := by
  constructor
  · simp [subtreesOf, subtreesOfList]
  · intro h
    simp [resolve, LocalSyntaxPtr.new, SyntaxTree.rangeOf, SyntaxTree.kindOf] at h

/-- C3 (amended): for a well-formed tree, a node with a nonempty range
whose pointer is not also the pointer of one of its ancestors resolves to
itself: `resolve (new n) T = some n`. -/
theorem resolve_new_roundtrip (T : SyntaxTree) (hwf : WFTree T) :
    ∀ n ∈ subtreesOf T, n.rangeOf.lo < n.rangeOf.hi →
      (∀ a ∈ subtreesOf T, n ∈ subtreesOf a →
        LocalSyntaxPtr.new a = LocalSyntaxPtr.new n → a = n) →
      resolve (LocalSyntaxPtr.new n) T = some n := by
  induction hwf with
  | mk k r cs hord hsub hdisj hrec ih =>
    intro n hn hne hanc
    by_cases hmatch : r = (LocalSyntaxPtr.new n).range ∧ k = (LocalSyntaxPtr.new n).kind
    · have heq : LocalSyntaxPtr.new (.node k r cs) = LocalSyntaxPtr.new n := by
        simp [LocalSyntaxPtr.new, SyntaxTree.rangeOf, SyntaxTree.kindOf, hmatch.1, hmatch.2]
      have := hanc (.node k r cs) (self_mem_subtreesOf _) hn heq
      rw [resolve, if_pos hmatch, this]
    · have hnT : n ≠ SyntaxTree.node k r cs := by
        rintro rfl
        exact hmatch ⟨rfl, rfl⟩
      rcases mem_subtreesOf_node.mp hn with rfl | ⟨c, hc, hnc⟩
      · exact absurd rfl hnT
      · obtain ⟨pre, post, rfl⟩ := List.append_of_mem hc
        have hcont := wftree_range_containment (hrec c hc) n hnc
        have hsubr : isSubrange (LocalSyntaxPtr.new n).range c.rangeOf = true := by
          simp only [isSubrange, LocalSyntaxPtr.new, Bool.and_eq_true, decide_eq_true_eq]
          exact hcont
        rw [resolve, if_neg hmatch,
          resolveIn_eq_resolve (LocalSyntaxPtr.new n) pre post c hdisj hne hsubr]
        exact ih c hc n hnc hne (fun a ha hna hp =>
          hanc a (mem_subtreesOf_node.mpr (Or.inr ⟨c, hc, ha⟩)) hna hp)

/-- C3 witness: in the well-formed two-child tree below, the second child
(kind 12, range `[3,5)`) resolves back to itself from its own pointer. -/
theorem resolve_new_roundtrip_witness :
    resolve (LocalSyntaxPtr.new (.node 12 ⟨3, 5⟩ []))
      (.node 10 ⟨0, 5⟩ [.node 11 ⟨0, 2⟩ [], .node 12 ⟨3, 5⟩ []]) =
      some (.node 12 ⟨3, 5⟩ []) := by
  refine resolve_new_roundtrip _ ?_ _ ?_ ?_ ?_
  · refine WFTree.mk _ _ _ (by decide) (by decide) (by decide) ?_
    intro c hc
    rcases List.mem_cons.mp hc with rfl | hc
    · exact WFTree.mk _ _ _ (by decide) (by simp) (by simp) (by simp)
    · rcases List.mem_cons.mp hc with rfl | hc
      · exact WFTree.mk _ _ _ (by decide) (by simp) (by simp) (by simp)
      · simp at hc
  · simp [subtreesOf, subtreesOfList]
  · decide
  · intro a ha hna hp
    simp [subtreesOf, subtreesOfList] at ha
    rcases ha with rfl | rfl | rfl
    · simp [LocalSyntaxPtr.new, SyntaxTree.rangeOf, SyntaxTree.kindOf] at hp
    · simp [subtreesOf, subtreesOfList] at hna
    · rfl

/-- C9: the `return` completion snippet is exactly determined by
(statement position, function returns a value): a value placeholder
(` $0`) appears iff the function has a return type, and a trailing
semicolon appears iff the completion is at statement position. -/
theorem complete_return_snippet (f : FnDefNode) (c : Bool) :
    completeReturn f c =
      some (keyword "return"
        ("return" ++ (if f.ret_type.isSome then " $0" else "")
          ++ (if c then ";" else ""))) := by
  cases c <;> cases h : f.ret_type.isSome <;> simp [completeReturn, keyword, h]

lemma isInLoopBody_boundary (r : TextRange) (b : SyntaxTree)
    (hb : b.kindOf = FN_DEF ∨ b.kindOf = LAMBDA_EXPR) :
    ∀ l1 l2, isInLoopBody r (l1 ++ b :: l2) = isInLoopBody r l1 := by
  intro l1
  induction l1 with
  | nil => intro l2; simp [isInLoopBody, hb]
  | cons a l1 ih =>
    intro l2
    by_cases ha : a.kindOf = FN_DEF ∨ a.kindOf = LAMBDA_EXPR
    · simp [isInLoopBody, ha]
    · by_cases hk : a.kindOf = FOR_EXPR ∨ a.kindOf = WHILE_EXPR ∨ a.kindOf = LOOP_EXPR
      · cases hb2 : loopBody a with
        | none => simp [isInLoopBody, ha, hk, hb2, ih]
        | some body =>
          by_cases hr2 : isSubrange r body.rangeOf = true
          · simp [isInLoopBody, ha, hk, hb2, hr2]
          · simp [isInLoopBody, ha, hk, hb2, hr2, ih]
      · simp [isInLoopBody, ha, hk, ih]

lemma isInLoopBody_iff (r : TextRange) :
    ∀ l : List SyntaxTree,
      isInLoopBody r l = true ↔
        ∃ l1 nd l2, l = l1 ++ nd :: l2 ∧
          (∀ a ∈ l1, ¬(a.kindOf = FN_DEF ∨ a.kindOf = LAMBDA_EXPR)) ∧
          (nd.kindOf = FOR_EXPR ∨ nd.kindOf = WHILE_EXPR ∨ nd.kindOf = LOOP_EXPR) ∧
          ∃ body, loopBody nd = some body ∧ isSubrange r body.rangeOf = true := by
  intro l
  induction l with
  | nil =>
    simp only [isInLoopBody]
    constructor
    · intro h; cases h
    · rintro ⟨l1, nd, l2, heq, -⟩
      have := congrArg List.length heq
      simp at this
      omega
  | cons n rest ih =>
    by_cases hb : n.kindOf = FN_DEF ∨ n.kindOf = LAMBDA_EXPR
    · simp only [isInLoopBody, if_pos hb]
      constructor
      · intro h; cases h
      · rintro ⟨l1, nd, l2, heq, hpre, hknd, body, hbody, hsub⟩
        cases l1 with
        | nil =>
          obtain ⟨rfl, rfl⟩ := by simpa using heq
          rcases hb with hb | hb <;> rcases hknd with hk | hk | hk <;>
            simp [FN_DEF, LAMBDA_EXPR, FOR_EXPR, WHILE_EXPR, LOOP_EXPR, hb] at hk
        | cons a l1 =>
          obtain ⟨rfl, -⟩ := by simpa using heq
          exact absurd hb (hpre n (by simp))
    · by_cases hk : n.kindOf = FOR_EXPR ∨ n.kindOf = WHILE_EXPR ∨ n.kindOf = LOOP_EXPR
      · cases hb2 : loopBody n with
        | some body =>
          by_cases hr2 : isSubrange r body.rangeOf = true
          · simp only [isInLoopBody, if_neg hb, if_pos hk, hb2, hr2, if_pos rfl]
            constructor
            · intro _
              exact ⟨[], n, rest, rfl, by simp, hk, body, hb2, hr2⟩
            · intro _; rfl
          · simp only [isInLoopBody, if_neg hb, if_pos hk, hb2, if_neg hr2]
            rw [ih]
            constructor
            · rintro ⟨l1, nd, l2, heq, hpre, hknd, body2, hbody2, hsub2⟩
              exact ⟨n :: l1, nd, l2, by simp [heq], by
                intro a ha
                rcases List.mem_cons.mp ha with rfl | ha
                · exact hb
                · exact hpre a ha, hknd, body2, hbody2, hsub2⟩
            · rintro ⟨l1, nd, l2, heq, hpre, hknd, body2, hbody2, hsub2⟩
              cases l1 with
              | nil =>
                obtain ⟨rfl, rfl⟩ := by simpa using heq
                rw [hb2] at hbody2
                cases hbody2
                exact absurd hsub2 hr2
              | cons a l1 =>
                obtain ⟨rfl, hrest⟩ := by simpa using heq
                exact ⟨l1, nd, l2, hrest, fun a ha => hpre a (by simp [ha]), hknd,
                  body2, hbody2, hsub2⟩
        | none =>
          simp only [isInLoopBody, if_neg hb, if_pos hk, hb2]
          rw [ih]
          constructor
          · rintro ⟨l1, nd, l2, heq, hpre, hknd, body2, hbody2, hsub2⟩
            exact ⟨n :: l1, nd, l2, by simp [heq], by
              intro a ha
              rcases List.mem_cons.mp ha with rfl | ha
              · exact hb
              · exact hpre a ha, hknd, body2, hbody2, hsub2⟩
          · rintro ⟨l1, nd, l2, heq, hpre, hknd, body2, hbody2, hsub2⟩
            cases l1 with
            | nil =>
              obtain ⟨rfl, rfl⟩ := by simpa using heq
              rw [hb2] at hbody2
              cases hbody2
            | cons a l1 =>
              obtain ⟨rfl, hrest⟩ := by simpa using heq
              exact ⟨l1, nd, l2, hrest, fun a ha => hpre a (by simp [ha]), hknd,
                body2, hbody2, hsub2⟩
      · simp only [isInLoopBody, if_neg hb, if_neg hk]
        rw [ih]
        constructor
        · rintro ⟨l1, nd, l2, heq, hpre, hknd, body2, hbody2, hsub2⟩
          exact ⟨n :: l1, nd, l2, by simp [heq], by
            intro a ha
            rcases List.mem_cons.mp ha with rfl | ha
            · exact hb
            · exact hpre a ha, hknd, body2, hbody2, hsub2⟩
        · rintro ⟨l1, nd, l2, heq, hpre, hknd, body2, hbody2, hsub2⟩
          cases l1 with
          | nil =>
            obtain ⟨rfl, rfl⟩ := by simpa using heq
            exact absurd hknd hk
          | cons a l1 =>
            obtain ⟨rfl, hrest⟩ := by simpa using heq
            exact ⟨l1, nd, l2, hrest, fun a ha => hpre a (by simp [ha]), hknd,
              body2, hbody2, hsub2⟩

lemma completeExprKeyword_break_continue (ctx : CompletionContext)
    (htriv : ctx.is_trivial_path = true) (f : FnDefNode)
    (hfn : ctx.function_syntax = some f) :
    ((keyword "break" (if ctx.can_be_stmt then "break;" else "break") ∈ completeExprKeyword ctx
      ∧ keyword "continue" (if ctx.can_be_stmt then "continue;" else "continue") ∈ completeExprKeyword ctx)
      ↔ isInLoopBody ctx.leafRange ctx.leafAncestors = true)
    ∧ (∀ it ∈ completeExprKeyword ctx, it.label = "break" ∨ it.label = "continue" →
        it.snippet = (if ctx.can_be_stmt then it.label ++ ";" else it.label)) := by
  cases hl : isInLoopBody ctx.leafRange ctx.leafAncestors <;>
    cases hcan : ctx.can_be_stmt <;>
    cases haft : ctx.after_if <;>
    cases hrt : f.ret_type.isSome <;>
    simp [completeExprKeyword, htriv, hfn, hl, hcan, haft, hrt, keyword, completeReturn]

/-- C10: `continue`/`break` are offered exactly when the cursor is
lexically inside a loop body without crossing a function or lambda
boundary: (1) `is_in_loop_body` ignores everything above the nearest
enclosing `FN_DEF`/`LAMBDA_EXPR` ancestor, so a lambda nested in a loop
hides the outer loop; (2) it returns true exactly when some ancestor
below that boundary is a for/while/loop whose loop body's range contains
the leaf; (3) in `complete_expr_keyword` the break/continue items are
present iff `is_in_loop_body` holds, and their snippets carry a trailing
semicolon iff the position is a statement position. -/
theorem break_continue_offered_iff_in_loop_body :
    (∀ (r : TextRange) (b : SyntaxTree),
      b.kindOf = FN_DEF ∨ b.kindOf = LAMBDA_EXPR →
      ∀ l1 l2, isInLoopBody r (l1 ++ b :: l2) = isInLoopBody r l1)
    ∧ (∀ (r : TextRange) (l : List SyntaxTree),
        isInLoopBody r l = true ↔
          ∃ l1 nd l2, l = l1 ++ nd :: l2 ∧
            (∀ a ∈ l1, ¬(a.kindOf = FN_DEF ∨ a.kindOf = LAMBDA_EXPR)) ∧
            (nd.kindOf = FOR_EXPR ∨ nd.kindOf = WHILE_EXPR ∨ nd.kindOf = LOOP_EXPR) ∧
            ∃ body, loopBody nd = some body ∧ isSubrange r body.rangeOf = true)
    ∧ (∀ ctx : CompletionContext, ctx.is_trivial_path = true →
        ∀ f, ctx.function_syntax = some f →
        ((keyword "break" (if ctx.can_be_stmt then "break;" else "break") ∈ completeExprKeyword ctx
          ∧ keyword "continue" (if ctx.can_be_stmt then "continue;" else "continue") ∈ completeExprKeyword ctx)
          ↔ isInLoopBody ctx.leafRange ctx.leafAncestors = true)
        ∧ (∀ it ∈ completeExprKeyword ctx, it.label = "break" ∨ it.label = "continue" →
            it.snippet = (if ctx.can_be_stmt then it.label ++ ";" else it.label))) :=
  ⟨fun r b hb l1 l2 => isInLoopBody_boundary r b hb l1 l2,
   fun r l => isInLoopBody_iff r l,
   fun ctx htriv f hfn => completeExprKeyword_break_continue ctx htriv f hfn⟩

/-- C10 witness: a lambda boundary hides an enclosing loop, and in a
concrete context inside a loop body both `break;` and `continue;` are
offered. -/
theorem break_continue_offered_witness :
    (isInLoopBody ⟨1, 2⟩ ([] ++ SyntaxTree.node LAMBDA_EXPR ⟨0, 9⟩ [] ::
        [SyntaxTree.node LOOP_EXPR ⟨0, 9⟩ [SyntaxTree.node BLOCK ⟨0, 9⟩ []]]) =
      isInLoopBody ⟨1, 2⟩ [])
    ∧ ((keyword "break" "break;" ∈ completeExprKeyword
          ⟨true, some ⟨none⟩, false, true, ⟨1, 2⟩,
            [SyntaxTree.node LOOP_EXPR ⟨0, 9⟩ [SyntaxTree.node BLOCK ⟨0, 9⟩ []]]⟩
        ∧ keyword "continue" "continue;" ∈ completeExprKeyword
          ⟨true, some ⟨none⟩, false, true, ⟨1, 2⟩,
            [SyntaxTree.node LOOP_EXPR ⟨0, 9⟩ [SyntaxTree.node BLOCK ⟨0, 9⟩ []]]⟩)
        ↔ isInLoopBody ⟨1, 2⟩
            [SyntaxTree.node LOOP_EXPR ⟨0, 9⟩ [SyntaxTree.node BLOCK ⟨0, 9⟩ []]] = true) :=
  ⟨break_continue_offered_iff_in_loop_body.1 ⟨1, 2⟩
      (SyntaxTree.node LAMBDA_EXPR ⟨0, 9⟩ []) (Or.inr rfl) []
      [SyntaxTree.node LOOP_EXPR ⟨0, 9⟩ [SyntaxTree.node BLOCK ⟨0, 9⟩ []]],
   (break_continue_offered_iff_in_loop_body.2.2
      ⟨true, some ⟨none⟩, false, true, ⟨1, 2⟩,
        [SyntaxTree.node LOOP_EXPR ⟨0, 9⟩ [SyntaxTree.node BLOCK ⟨0, 9⟩ []]]⟩
      rfl ⟨none⟩ rfl).1⟩

namespace Hir

/-- C5: `if let PAT = E { A } else { B }` lowers to a two-arm match over
E: the first arm's patterns are exactly the lowering of PAT with body A,
the second arm matches a freshly allocated placeholder pattern
(`Pat::Missing`, no syntax pointer) with body B, and an absent else
branch is replaced by a synthesized empty block (`Block [] None`);
a plain `if E { A }` with no else lowers to `If { condition, then_branch,
else_branch: None }`, not to a match. -/
theorem if_lowering (s : ExprCollector) (ptr : LocalSyntaxPtr)
    (condExpr : Option AstExpr) (blocks : List AstBlock) :
    (∀ pat : AstPat,
      let r1 := collectPat pat s
      let r2 := collectExprOpt condExpr r1.2
      let r3 := collectBlockAt0 blocks r2.2
      let r4 := collectBlockAt1OrEmpty blocks r3.2
      let r5 := allocPatRaw .missing r4.2
      let r := collectExpr (.ifExpr ptr (some (.mk (some pat) condExpr)) blocks) s
      r.2.exprs[r.1]? = some (.matchE r2.1 [⟨[r1.1], r3.1⟩, ⟨[r5.1], r4.1⟩])
      ∧ r.2.pats[r5.1]? = some .missing
      ∧ (blocks[1]? = none → r.2.exprs[r4.1]? = some (.block [] none)))
    ∧ (blocks[1]? = none →
      let r1 := collectExprOpt condExpr s
      let r2 := collectBlockAt0 blocks r1.2
      let r := collectExpr (.ifExpr ptr (some (.mk none condExpr)) blocks) s
      r.2.exprs[r.1]? = some (.ifE r1.1 r2.1 none)) := by
  constructor
  · intro pat
    simp only [collectExpr, allocExpr, allocPatRaw]
    refine ⟨List.getElem?_concat_length _ _, ?_, ?_⟩
    · exact List.getElem?_concat_length _ _
    · intro hb
      have h4 : collectBlockAt1OrEmpty blocks
          (collectBlockAt0 blocks (collectExprOpt condExpr (collectPat pat s).2).2).2 =
          emptyBlock (collectBlockAt0 blocks (collectExprOpt condExpr (collectPat pat s).2).2).2 := by
        cases blocks with
        | nil => rfl
        | cons b1 rest =>
          cases rest with
          | nil => rfl
          | cons b2 rest2 => simp at hb
      rw [h4]
      simp only [emptyBlock, allocExprRaw]
      rw [List.getElem?_append_left (by simp)]
      exact List.getElem?_concat_length _ _
  · intro hb
    have h3 : collectBlockAt1Map blocks
        (collectBlockAt0 blocks (collectExprOpt condExpr s).2).2 =
        (none, (collectBlockAt0 blocks (collectExprOpt condExpr s).2).2) := by
      cases blocks with
      | nil => rfl
      | cons b1 rest =>
        cases rest with
        | nil => rfl
        | cons b2 rest2 => simp at hb
    simp only [collectExpr, h3, allocExpr]
    exact List.getElem?_concat_length _ _

/-- C5 witness: a concrete `if let` with no else branch lowers to the
two-arm match (match id 3 over expression 0, arms `[pat 0] -> 1` and
`[placeholder pat 1] -> 2`) with expression 2 the synthesized empty
block, and the corresponding plain `if` lowers to an `If` node with no
else branch. -/
theorem if_lowering_witness :
    ((collectExpr (.ifExpr ⟨⟨0, 9⟩, 20⟩
        (some (.mk (some (.bindPat ⟨⟨3, 4⟩, 21⟩ (some "x"))) (some (.literal ⟨⟨7, 8⟩, 22⟩))))
        [.mk ⟨⟨9, 9⟩, 6⟩ [] none]) ExprCollector.new).2.exprs[3]? =
      some (.matchE 0 [⟨[0], 1⟩, ⟨[1], 2⟩]))
    ∧ ((collectExpr (.ifExpr ⟨⟨0, 9⟩, 20⟩
        (some (.mk (some (.bindPat ⟨⟨3, 4⟩, 21⟩ (some "x"))) (some (.literal ⟨⟨7, 8⟩, 22⟩))))
        [.mk ⟨⟨9, 9⟩, 6⟩ [] none]) ExprCollector.new).2.exprs[2]? =
      some (.block [] none))
    ∧ ((collectExpr (.ifExpr ⟨⟨0, 9⟩, 20⟩
        (some (.mk none (some (.literal ⟨⟨7, 8⟩, 22⟩))))
        [.mk ⟨⟨9, 9⟩, 6⟩ [] none]) ExprCollector.new).2.exprs[2]? =
      some (.ifE 0 1 none)) := by
  have h := if_lowering ExprCollector.new ⟨⟨0, 9⟩, 20⟩
    (some (.literal ⟨⟨7, 8⟩, 22⟩)) [.mk ⟨⟨9, 9⟩, 6⟩ [] none]
  have h1 := h.1 (.bindPat ⟨⟨3, 4⟩, 21⟩ (some "x"))
  have h2 := h.2 rfl
  exact ⟨h1.1, h1.2.2 rfl, h2⟩

/-- C7: lowering a parenthesized expression `(x)` allocates no arena
entry of its own and returns the id of the lowered inner expression; the
only state change beyond lowering the inner expression is the forward
map entry from the paren node's pointer to that inner id, so
`syntax_expr` on the paren pointer yields the inner expression's id. -/
theorem paren_transparent (s : ExprCollector) (ptr : LocalSyntaxPtr)
    (inner : Option AstExpr) :
    (collectExpr (.parenExpr ptr inner) s).1 = (collectExprOpt inner s).1
    ∧ (collectExpr (.parenExpr ptr inner) s).2.exprs = (collectExprOpt inner s).2.exprs
    ∧ (collectExpr (.parenExpr ptr inner) s).2.expr_syntax_mapping_back =
        (collectExprOpt inner s).2.expr_syntax_mapping_back
    ∧ (collectExpr (.parenExpr ptr inner) s).2.expr_syntax_mapping.lookup ptr =
        some (collectExprOpt inner s).1
    ∧ (∀ x, inner = some x →
        (collectExpr (.parenExpr ptr inner) s).1 = (collectExpr x s).1) := by
  refine ⟨rfl, rfl, rfl, ?_, ?_⟩
  · simp [collectExpr, List.lookup]
  · rintro x rfl
    rfl

/-- C7 witness: lowering `(x)` around a concrete path expression yields
id 0, the same id as lowering the path expression alone, with the paren
pointer mapped to it. -/
theorem paren_transparent_witness :
    (collectExpr (.parenExpr ⟨⟨0, 3⟩, 30⟩ (some (.pathExpr ⟨⟨1, 2⟩, 31⟩ (some ⟨some ⟨["x"]⟩⟩))))
        ExprCollector.new).1 =
      (collectExpr (.pathExpr ⟨⟨1, 2⟩, 31⟩ (some ⟨some ⟨["x"]⟩⟩)) ExprCollector.new).1 :=
  (paren_transparent ExprCollector.new ⟨⟨0, 3⟩, 30⟩
    (some (.pathExpr ⟨⟨1, 2⟩, 31⟩ (some ⟨some ⟨["x"]⟩⟩)))).2.2.2.2
    (.pathExpr ⟨⟨1, 2⟩, 31⟩ (some ⟨some ⟨["x"]⟩⟩)) rfl

lemma lookup_cons_pos {α β : Type} [BEq α] [LawfulBEq α] (k : α) (v : β)
    (l : List (α × β)) : ((k, v) :: l).lookup k = some v := by
  simp [List.lookup]

lemma lookup_cons_ne {α β : Type} [BEq α] [LawfulBEq α] {k a : α} (v : β)
    (l : List (α × β)) (h : a ≠ k) : ((k, v) :: l).lookup a = l.lookup a := by
  have hb : (a == k) = false := beq_eq_false_iff_ne.mpr h
  simp [List.lookup, hb]

lemma Extends.refl (ep pp : List LocalSyntaxPtr) (s : ExprCollector) : Extends ep pp s s :=
  ⟨le_refl _, le_refl _, fun _ _ => rfl, fun _ _ => rfl,
   fun _ h => Or.inl h, fun _ h => Or.inl h,
   fun _ _ h => h, fun _ _ h => h, fun _ _ h => h, fun _ _ h => h⟩

lemma Extends.trans {ep1 pp1 ep2 pp2 : List LocalSyntaxPtr} {s s1 s2 : ExprCollector}
    (h1 : Extends ep1 pp1 s s1) (h2 : Extends ep2 pp2 s1 s2) :
    Extends (ep1 ++ ep2) (pp1 ++ pp2) s s2 := by
  obtain ⟨a1, b1, c1, d1, e1, f1, g1, i1, j1, k1⟩ := h1
  obtain ⟨a2, b2, c2, d2, e2, f2, g2, i2, j2, k2⟩ := h2
  refine ⟨le_trans a1 a2, le_trans b1 b2, ?_, ?_, ?_, ?_, ?_, ?_, ?_, ?_⟩
  · intro id h; rw [c2 id (lt_of_lt_of_le h a1)]; exact c1 id h
  · intro id h; rw [d2 id (lt_of_lt_of_le h b1)]; exact d1 id h
  · intro q h
    rcases e2 q h with h1 | h1
    · rcases e1 q h1 with h0 | h0
      · exact Or.inl h0
      · exact Or.inr (List.mem_append.mpr (Or.inl h0))
    · exact Or.inr (List.mem_append.mpr (Or.inr h1))
  · intro q h
    rcases f2 q h with h1 | h1
    · rcases f1 q h1 with h0 | h0
      · exact Or.inl h0
      · exact Or.inr (List.mem_append.mpr (Or.inl h0))
    · exact Or.inr (List.mem_append.mpr (Or.inr h1))
  · exact fun q v h => g2 q v (g1 q v h)
  · exact fun q v h => i2 q v (i1 q v h)
  · exact fun id v h => j2 id v (j1 id v h)
  · exact fun id v h => k2 id v (k1 id v h)

lemma Extends.mono {ep pp ep2 pp2 : List LocalSyntaxPtr} {s s2 : ExprCollector}
    (h : Extends ep pp s s2) (he : ep ⊆ ep2) (hp : pp ⊆ pp2) :
    Extends ep2 pp2 s s2 := by
  obtain ⟨a, b, c, d, e, f, g, i, j, k⟩ := h
  exact ⟨a, b, c, d,
    fun q hq => (e q hq).imp id (fun m => he m),
    fun q hq => (f q hq).imp id (fun m => hp m), g, i, j, k⟩

lemma fresh_after_expr {ep1 pp1 ep2 : List LocalSyntaxPtr} {s s1 : ExprCollector}
    (hext : Extends ep1 pp1 s s1)
    (hfr : ∀ q ∈ ep1 ++ ep2, s.expr_syntax_mapping.lookup q = none)
    (hnd : (ep1 ++ ep2).Nodup) :
    ∀ q ∈ ep2, s1.expr_syntax_mapping.lookup q = none := by
  intro q hq
  by_contra hne
  rcases hext.2.2.2.2.1 q hne with h | h
  · exact h (hfr q (List.mem_append.mpr (Or.inr hq)))
  · exact (List.disjoint_of_nodup_append hnd) h hq

lemma fresh_after_pat {ep1 pp1 pp2 : List LocalSyntaxPtr} {s s1 : ExprCollector}
    (hext : Extends ep1 pp1 s s1)
    (hfr : ∀ q ∈ pp1 ++ pp2, s.pat_syntax_mapping.lookup q = none)
    (hnd : (pp1 ++ pp2).Nodup) :
    ∀ q ∈ pp2, s1.pat_syntax_mapping.lookup q = none := by
  intro q hq
  by_contra hne
  rcases hext.2.2.2.2.2.1 q hne with h | h
  · exact h (hfr q (List.mem_append.mpr (Or.inr hq)))
  · exact (List.disjoint_of_nodup_append hnd) h hq

lemma goodrun_allocExpr (e : Expr) (p : LocalSyntaxPtr) (s : ExprCollector)
    (hinv : MapsInv s) (hfr : s.expr_syntax_mapping.lookup p = none) :
    MapsInv (allocExpr e p s).2 ∧ Extends [p] [] s (allocExpr e p s).2 := by
  obtain ⟨es, ps, m1, m2, m3, m4⟩ := s
  obtain ⟨h1, h2, h3, h4⟩ := hinv
  dsimp only [allocExpr, MapsInv, Extends] at *
  refine ⟨⟨?_, h2, ?_, h4⟩, by simp, le_refl _, ?_, fun _ _ => rfl, ?_, fun q hq => Or.inl hq,
    ?_, fun q v hq => hq, ?_, fun id v hb => hb⟩
  · intro id p2 hb
    by_cases hid : id = es.length
    · subst hid
      rw [lookup_cons_pos] at hb
      cases hb
      rw [lookup_cons_pos]
      exact ⟨rfl, by simp⟩
    · rw [lookup_cons_ne _ _ hid] at hb
      obtain ⟨hf, hlt⟩ := h1 id p2 hb
      have hp2 : p2 ≠ p := by
        rintro rfl
        rw [hf] at hfr
        cases hfr
      rw [lookup_cons_ne _ _ hp2]
      exact ⟨hf, by simp; omega⟩
  · intro id hlt hb
    by_cases hid : id = es.length
    · subst hid
      rw [lookup_cons_pos] at hb
      cases hb
    · have hlt2 : id < es.length := by
        simp at hlt
        omega
      rw [lookup_cons_ne _ _ hid] at hb
      rw [List.getElem?_append_left hlt2]
      exact h3 id hlt2 hb
  · intro id hlt
    exact List.getElem?_append_left hlt
  · intro q hq
    by_cases hqp : q = p
    · exact Or.inr (by simp [hqp])
    · rw [lookup_cons_ne _ _ hqp] at hq
      exact Or.inl hq
  · intro q v hq
    have hqp : q ≠ p := by
      rintro rfl
      rw [hq] at hfr
      cases hfr
    rw [lookup_cons_ne _ _ hqp]
    exact hq
  · intro id v hb
    have hid : id ≠ es.length := by
      have := (h1 id v hb).2
      omega
    rw [lookup_cons_ne _ _ hid]
    exact hb

lemma goodrun_allocPat (p : Pat) (ptr : LocalSyntaxPtr) (s : ExprCollector)
    (hinv : MapsInv s) (hfr : s.pat_syntax_mapping.lookup ptr = none) :
    MapsInv (allocPat p ptr s).2 ∧ Extends [] [ptr] s (allocPat p ptr s).2 := by
  obtain ⟨es, ps, m1, m2, m3, m4⟩ := s
  obtain ⟨h1, h2, h3, h4⟩ := hinv
  dsimp only [allocPat, MapsInv, Extends] at *
  refine ⟨⟨h1, ?_, h3, ?_⟩, le_refl _, by simp, fun _ _ => rfl, ?_,
    fun q hq => Or.inl hq, ?_, fun q v hq => hq, ?_, fun id v hb => hb, ?_⟩
  · intro id p2 hb
    by_cases hid : id = ps.length
    · subst hid
      rw [lookup_cons_pos] at hb
      cases hb
      rw [lookup_cons_pos]
      exact ⟨rfl, by simp⟩
    · rw [lookup_cons_ne _ _ hid] at hb
      obtain ⟨hf, hlt⟩ := h2 id p2 hb
      have hp2 : p2 ≠ ptr := by
        rintro rfl
        rw [hf] at hfr
        cases hfr
      rw [lookup_cons_ne _ _ hp2]
      exact ⟨hf, by simp; omega⟩
  · intro id hlt hb
    by_cases hid : id = ps.length
    · subst hid
      rw [lookup_cons_pos] at hb
      cases hb
    · have hlt2 : id < ps.length := by
        simp at hlt
        omega
      rw [lookup_cons_ne _ _ hid] at hb
      rw [List.getElem?_append_left hlt2]
      exact h4 id hlt2 hb
  · intro id hlt
    exact List.getElem?_append_left hlt
  · intro q hq
    by_cases hqp : q = ptr
    · exact Or.inr (by simp [hqp])
    · rw [lookup_cons_ne _ _ hqp] at hq
      exact Or.inl hq
  · intro q v hq
    have hqp : q ≠ ptr := by
      rintro rfl
      rw [hq] at hfr
      cases hfr
    rw [lookup_cons_ne _ _ hqp]
    exact hq
  · intro id v hb
    have hid : id ≠ ps.length := by
      have := (h2 id v hb).2
      omega
    rw [lookup_cons_ne _ _ hid]
    exact hb

lemma goodrun_allocExprRaw (e : Expr) (s : ExprCollector) (hinv : MapsInv s)
    (he : e = Expr.missing ∨ e = Expr.block [] none) :
    MapsInv (allocExprRaw e s).2 ∧ Extends [] [] s (allocExprRaw e s).2 := by
  obtain ⟨es, ps, m1, m2, m3, m4⟩ := s
  obtain ⟨h1, h2, h3, h4⟩ := hinv
  dsimp only [allocExprRaw, MapsInv, Extends] at *
  refine ⟨⟨?_, h2, ?_, h4⟩, by simp, le_refl _, ?_, fun _ _ => rfl,
    fun q hq => Or.inl hq, fun q hq => Or.inl hq,
    fun q v hq => hq, fun q v hq => hq, fun id v hb => hb, fun id v hb => hb⟩
  · intro id p2 hb
    obtain ⟨hf, hlt⟩ := h1 id p2 hb
    exact ⟨hf, by simp; omega⟩
  · intro id hlt hb
    by_cases hid : id = es.length
    · subst hid
      rcases he with rfl | rfl
      · exact Or.inl (by rw [List.getElem?_concat_length])
      · exact Or.inr (by rw [List.getElem?_concat_length])
    · have hlt2 : id < es.length := by
        simp at hlt
        omega
      rw [List.getElem?_append_left hlt2]
      exact h3 id hlt2 hb
  · intro id hlt
    exact List.getElem?_append_left hlt

lemma goodrun_allocPatRaw (s : ExprCollector) (hinv : MapsInv s) :
    MapsInv (allocPatRaw .missing s).2 ∧ Extends [] [] s (allocPatRaw .missing s).2 := by
  obtain ⟨es, ps, m1, m2, m3, m4⟩ := s
  obtain ⟨h1, h2, h3, h4⟩ := hinv
  dsimp only [allocPatRaw, MapsInv, Extends] at *
  refine ⟨⟨h1, ?_, h3, ?_⟩, le_refl _, by simp, fun _ _ => rfl, ?_,
    fun q hq => Or.inl hq, fun q hq => Or.inl hq,
    fun q v hq => hq, fun q v hq => hq, fun id v hb => hb, fun id v hb => hb⟩
  · intro id p2 hb
    obtain ⟨hf, hlt⟩ := h2 id p2 hb
    exact ⟨hf, by simp; omega⟩
  · intro id hlt hb
    by_cases hid : id = ps.length
    · subst hid
      rw [List.getElem?_concat_length]
    · have hlt2 : id < ps.length := by
        simp at hlt
        omega
      rw [List.getElem?_append_left hlt2]
      exact h4 id hlt2 hb
  · intro id hlt
    exact List.getElem?_append_left hlt

lemma goodrun_emptyBlock (s : ExprCollector) (hinv : MapsInv s) :
    MapsInv (emptyBlock s).2 ∧ Extends [] [] s (emptyBlock s).2 :=
  goodrun_allocExprRaw _ s hinv (Or.inr rfl)

lemma goodrun_parenInsert (ptr : LocalSyntaxPtr) (v : Nat) (s : ExprCollector)
    (hinv : MapsInv s) (hfr : s.expr_syntax_mapping.lookup ptr = none) :
    MapsInv { s with expr_syntax_mapping := (ptr, v) :: s.expr_syntax_mapping }
    ∧ Extends [ptr] [] s { s with expr_syntax_mapping := (ptr, v) :: s.expr_syntax_mapping } := by
  obtain ⟨es, ps, m1, m2, m3, m4⟩ := s
  obtain ⟨h1, h2, h3, h4⟩ := hinv
  dsimp only [MapsInv, Extends] at *
  refine ⟨⟨?_, h2, h3, h4⟩, le_refl _, le_refl _, fun _ _ => rfl, fun _ _ => rfl, ?_,
    fun q hq => Or.inl hq, ?_, fun q v2 hq => hq, fun id v2 hb => hb, fun id v2 hb => hb⟩
  · intro id p2 hb
    obtain ⟨hf, hlt⟩ := h1 id p2 hb
    have hp2 : p2 ≠ ptr := by
      rintro rfl
      rw [hf] at hfr
      cases hfr
    rw [lookup_cons_ne _ _ hp2]
    exact ⟨hf, hlt⟩
  · intro q hq
    by_cases hqp : q = ptr
    · exact Or.inr (by simp [hqp])
    · rw [lookup_cons_ne _ _ hqp] at hq
      exact Or.inl hq
  · intro q v2 hq
    have hqp : q ≠ ptr := by
      rintro rfl
      rw [hq] at hfr
      cases hfr
    rw [lookup_cons_ne _ _ hqp]
    exact hq

lemma GoodRun.seq {A B : Type} {ep1 pp1 ep2 pp2 : List LocalSyntaxPtr}
    {m : ExprCollector → A × ExprCollector}
    {k : A → ExprCollector → B × ExprCollector}
    (hm : GoodRun ep1 pp1 m) (hk : ∀ a, GoodRun ep2 pp2 (k a)) :
    GoodRun (ep1 ++ ep2) (pp1 ++ pp2) (fun s => k (m s).1 (m s).2) := by
  intro s hinv hnd1 hnd2 hfr1 hfr2
  obtain ⟨hnd1a, hnd1b, -⟩ := List.nodup_append.mp hnd1
  obtain ⟨hnd2a, hnd2b, -⟩ := List.nodup_append.mp hnd2
  obtain ⟨hm1, hext1⟩ := hm s hinv hnd1a hnd2a
    (fun q hq => hfr1 q (List.mem_append.mpr (Or.inl hq)))
    (fun q hq => hfr2 q (List.mem_append.mpr (Or.inl hq)))
  obtain ⟨hk1, hext2⟩ := hk (m s).1 (m s).2 hm1 hnd1b hnd2b
    (fresh_after_expr hext1 hfr1 hnd1)
    (fresh_after_pat hext1 hfr2 hnd2)
  exact ⟨hk1, hext1.trans hext2⟩

lemma GoodRun.pure {A : Type} (a : A) : GoodRun [] [] (fun s => (a, s)) :=
  fun s hinv _ _ _ _ => ⟨hinv, Extends.refl [] [] s⟩

lemma GoodRun.cast {A : Type} {ep pp ep2 pp2 : List LocalSyntaxPtr}
    {run : ExprCollector → A × ExprCollector}
    (h : GoodRun ep pp run) (he : ep = ep2) (hp : pp = pp2) :
    GoodRun ep2 pp2 run := he ▸ hp ▸ h

lemma GoodRun.allocExpr (e : Expr) (p : LocalSyntaxPtr) :
    GoodRun [p] [] (allocExpr e p) := by
  intro s hinv _ _ hfr1 _
  exact goodrun_allocExpr e p s hinv (hfr1 p (by simp))

lemma GoodRun.allocExprRaw {e : Expr}
    (he : e = Expr.missing ∨ e = Expr.block [] none) :
    GoodRun [] [] (allocExprRaw e) := by
  intro s hinv _ _ _ _
  exact goodrun_allocExprRaw e s hinv he

lemma GoodRun.allocPat (p : Pat) (ptr : LocalSyntaxPtr) :
    GoodRun [] [ptr] (allocPat p ptr) := by
  intro s hinv _ _ _ hfr2
  exact goodrun_allocPat p ptr s hinv (hfr2 ptr (by simp))

lemma GoodRun.allocPatRaw : GoodRun [] [] (allocPatRaw .missing) := by
  intro s hinv _ _ _ _
  exact goodrun_allocPatRaw s hinv

lemma GoodRun.emptyBlockRun : GoodRun [] [] emptyBlock := by
  intro s hinv _ _ _ _
  exact goodrun_emptyBlock s hinv

lemma GoodRun.parenStep (ptr : LocalSyntaxPtr) (a : Nat) :
    GoodRun [ptr] [] (fun s =>
      ((a : Nat), { s with expr_syntax_mapping := (ptr, a) :: s.expr_syntax_mapping })) := by
  intro s hinv _ _ hfr1 _
  exact goodrun_parenInsert ptr a s hinv (hfr1 ptr (by simp))

set_option maxHeartbeats 8000000 in
theorem collect_good_master : ∀ n : Nat,
    (∀ e : AstExpr, sizeOf e < n →
      GoodRun (exprPtrs e).1 (exprPtrs e).2 (collectExpr e)) ∧
    (∀ oe : Option AstExpr, sizeOf oe < n →
      GoodRun (exprOptPtrs oe).1 (exprOptPtrs oe).2 (collectExprOpt oe)) ∧
    (∀ oe : Option AstExpr, sizeOf oe < n →
      GoodRun (exprOptPtrs oe).1 (exprOptPtrs oe).2 (collectExprMapOpt oe)) ∧
    (∀ es : List AstExpr, sizeOf es < n →
      GoodRun (exprListPtrs es).1 (exprListPtrs es).2 (collectExprList es)) ∧
    (∀ b : AstBlock, sizeOf b < n →
      GoodRun (blockPtrs b).1 (blockPtrs b).2 (collectBlock b)) ∧
    (∀ ob : Option AstBlock, sizeOf ob < n →
      GoodRun (blockOptPtrs ob).1 (blockOptPtrs ob).2 (collectBlockOpt ob)) ∧
    (∀ bs : List AstBlock, sizeOf bs < n →
      GoodRun (blockAt0Ptrs bs).1 (blockAt0Ptrs bs).2 (collectBlockAt0 bs)) ∧
    (∀ bs : List AstBlock, sizeOf bs < n →
      GoodRun (blockAt1Ptrs bs).1 (blockAt1Ptrs bs).2 (collectBlockAt1OrEmpty bs)) ∧
    (∀ bs : List AstBlock, sizeOf bs < n →
      GoodRun (blockAt1Ptrs bs).1 (blockAt1Ptrs bs).2 (collectBlockAt1Map bs)) ∧
    (∀ ss : List AstStmt, sizeOf ss < n →
      GoodRun (stmtListPtrs ss).1 (stmtListPtrs ss).2 (collectStmtList ss)) ∧
    (∀ arms : List AstMatchArm, sizeOf arms < n →
      GoodRun (armListPtrs arms).1 (armListPtrs arms).2 (collectArmList arms)) ∧
    (∀ fs : List AstNamedField, sizeOf fs < n →
      GoodRun (fieldListPtrs fs).1 (fieldListPtrs fs).2 (collectFieldList fs)) ∧
    (∀ p : AstPat, sizeOf p < n → GoodRun [] (patPtrs p) (collectPat p)) ∧
    (∀ op : Option AstPat, sizeOf op < n → GoodRun [] (patOptPtrs op) (collectPatOpt op)) ∧
    (∀ ps : List AstPat, sizeOf ps < n → GoodRun [] (patListPtrs ps) (collectPatList ps)) ∧
    (∀ params : List AstParam, sizeOf params < n →
      GoodRun [] (paramListPtrs params) (collectParamList params)) := by
  intro n
  induction n using Nat.strong_induction_on with
  | _ n ih =>
    rcases n with _ | n0
    · refine ⟨?_, ?_, ?_, ?_, ?_, ?_, ?_, ?_, ?_, ?_, ?_, ?_, ?_, ?_, ?_, ?_⟩ <;>
        exact fun _ h => absurd h (Nat.not_lt_zero _)
    · obtain ⟨IH1, IH2, IH2b, IH3, IH4, IH5, IH6, IH7, IH7b, IH8, IH9, IH10,
        IH11, IH12, IH13, IH14⟩ := ih n0 (Nat.lt_succ_self n0)
      refine ⟨?_, ?_, ?_, ?_, ?_, ?_, ?_, ?_, ?_, ?_, ?_, ?_, ?_, ?_, ?_, ?_⟩
      · -- collectExpr
        intro e h
        cases e with
        | ifExpr ptr cond blocks =>
          rcases cond with _ | ⟨p, ce⟩
          · simp at h
            exact GoodRun.cast
              (GoodRun.seq (GoodRun.allocExprRaw (Or.inl rfl)) (fun a1 => GoodRun.seq (IH6 blocks (by omega)) (fun a2 => GoodRun.seq (IH7b blocks (by omega)) (fun a3 => GoodRun.allocExpr (.ifE a1 a2 a3) ptr))))
              (by simp [exprPtrs, exprOptPtrs, exprListPtrs, blockPtrs, blockOptPtrs, blockAt0Ptrs, blockAt1Ptrs, stmtListPtrs, armListPtrs, fieldListPtrs, patPtrs, patListPtrs, patOptPtrs, paramListPtrs, pcat]) (by simp [exprPtrs, exprOptPtrs, exprListPtrs, blockPtrs, blockOptPtrs, blockAt0Ptrs, blockAt1Ptrs, stmtListPtrs, armListPtrs, fieldListPtrs, patPtrs, patListPtrs, patOptPtrs, paramListPtrs, pcat])
          · rcases p with _ | pat
            · simp at h
              exact GoodRun.cast
                (GoodRun.seq (IH2 ce (by omega)) (fun a1 => GoodRun.seq (IH6 blocks (by omega)) (fun a2 => GoodRun.seq (IH7b blocks (by omega)) (fun a3 => GoodRun.allocExpr (.ifE a1 a2 a3) ptr))))
                (by simp [exprPtrs, exprOptPtrs, exprListPtrs, blockPtrs, blockOptPtrs, blockAt0Ptrs, blockAt1Ptrs, stmtListPtrs, armListPtrs, fieldListPtrs, patPtrs, patListPtrs, patOptPtrs, paramListPtrs, pcat]) (by simp [exprPtrs, exprOptPtrs, exprListPtrs, blockPtrs, blockOptPtrs, blockAt0Ptrs, blockAt1Ptrs, stmtListPtrs, armListPtrs, fieldListPtrs, patPtrs, patListPtrs, patOptPtrs, paramListPtrs, pcat])
            · simp at h
              exact GoodRun.cast
                (GoodRun.seq (IH11 pat (by omega)) (fun a1 => GoodRun.seq (IH2 ce (by omega)) (fun a2 => GoodRun.seq (IH6 blocks (by omega)) (fun a3 => GoodRun.seq (IH7 blocks (by omega)) (fun a4 => GoodRun.seq GoodRun.allocPatRaw (fun a5 => GoodRun.allocExpr (.matchE a2 [⟨[a1], a3⟩, ⟨[a5], a4⟩]) ptr))))))
                (by simp [exprPtrs, exprOptPtrs, exprListPtrs, blockPtrs, blockOptPtrs, blockAt0Ptrs, blockAt1Ptrs, stmtListPtrs, armListPtrs, fieldListPtrs, patPtrs, patListPtrs, patOptPtrs, paramListPtrs, pcat]) (by simp [exprPtrs, exprOptPtrs, exprListPtrs, blockPtrs, blockOptPtrs, blockAt0Ptrs, blockAt1Ptrs, stmtListPtrs, armListPtrs, fieldListPtrs, patPtrs, patListPtrs, patOptPtrs, paramListPtrs, pcat])
        | blockExpr ptr block =>
          simp at h
          exact GoodRun.cast
            (IH5 block (by omega))
            (by simp [exprPtrs, exprOptPtrs, exprListPtrs, blockPtrs, blockOptPtrs, blockAt0Ptrs, blockAt1Ptrs, stmtListPtrs, armListPtrs, fieldListPtrs, patPtrs, patListPtrs, patOptPtrs, paramListPtrs, pcat]) (by simp [exprPtrs, exprOptPtrs, exprListPtrs, blockPtrs, blockOptPtrs, blockAt0Ptrs, blockAt1Ptrs, stmtListPtrs, armListPtrs, fieldListPtrs, patPtrs, patListPtrs, patOptPtrs, paramListPtrs, pcat])
        | loopExpr ptr body =>
          simp at h
          exact GoodRun.cast
            (GoodRun.seq (IH5 body (by omega)) (fun a => GoodRun.allocExpr (.loop a) ptr))
            (by simp [exprPtrs, exprOptPtrs, exprListPtrs, blockPtrs, blockOptPtrs, blockAt0Ptrs, blockAt1Ptrs, stmtListPtrs, armListPtrs, fieldListPtrs, patPtrs, patListPtrs, patOptPtrs, paramListPtrs, pcat]) (by simp [exprPtrs, exprOptPtrs, exprListPtrs, blockPtrs, blockOptPtrs, blockAt0Ptrs, blockAt1Ptrs, stmtListPtrs, armListPtrs, fieldListPtrs, patPtrs, patListPtrs, patOptPtrs, paramListPtrs, pcat])
        | whileExpr ptr cond body =>
          rcases cond with _ | ⟨p, ce⟩
          · simp at h
            exact GoodRun.cast
              (GoodRun.seq (GoodRun.allocExprRaw (Or.inl rfl)) (fun a1 => GoodRun.seq (IH5 body (by omega)) (fun a2 => GoodRun.allocExpr (.whileE a1 a2) ptr)))
              (by simp [exprPtrs, exprOptPtrs, exprListPtrs, blockPtrs, blockOptPtrs, blockAt0Ptrs, blockAt1Ptrs, stmtListPtrs, armListPtrs, fieldListPtrs, patPtrs, patListPtrs, patOptPtrs, paramListPtrs, pcat]) (by simp [exprPtrs, exprOptPtrs, exprListPtrs, blockPtrs, blockOptPtrs, blockAt0Ptrs, blockAt1Ptrs, stmtListPtrs, armListPtrs, fieldListPtrs, patPtrs, patListPtrs, patOptPtrs, paramListPtrs, pcat])
          · rcases p with _ | pat
            · simp at h
              exact GoodRun.cast
                (GoodRun.seq (IH2 ce (by omega)) (fun a1 => GoodRun.seq (IH5 body (by omega)) (fun a2 => GoodRun.allocExpr (.whileE a1 a2) ptr)))
                (by simp [exprPtrs, exprOptPtrs, exprListPtrs, blockPtrs, blockOptPtrs, blockAt0Ptrs, blockAt1Ptrs, stmtListPtrs, armListPtrs, fieldListPtrs, patPtrs, patListPtrs, patOptPtrs, paramListPtrs, pcat]) (by simp [exprPtrs, exprOptPtrs, exprListPtrs, blockPtrs, blockOptPtrs, blockAt0Ptrs, blockAt1Ptrs, stmtListPtrs, armListPtrs, fieldListPtrs, patPtrs, patListPtrs, patOptPtrs, paramListPtrs, pcat])
            · simp at h
              exact GoodRun.cast
                (GoodRun.allocExpr .missing ptr)
                (by simp [exprPtrs, exprOptPtrs, exprListPtrs, blockPtrs, blockOptPtrs, blockAt0Ptrs, blockAt1Ptrs, stmtListPtrs, armListPtrs, fieldListPtrs, patPtrs, patListPtrs, patOptPtrs, paramListPtrs, pcat]) (by simp [exprPtrs, exprOptPtrs, exprListPtrs, blockPtrs, blockOptPtrs, blockAt0Ptrs, blockAt1Ptrs, stmtListPtrs, armListPtrs, fieldListPtrs, patPtrs, patListPtrs, patOptPtrs, paramListPtrs, pcat])
        | forExpr ptr iterable pat body =>
          simp at h
          exact GoodRun.cast
            (GoodRun.seq (IH2 iterable (by omega)) (fun a1 => GoodRun.seq (IH12 pat (by omega)) (fun a2 => GoodRun.seq (IH5 body (by omega)) (fun a3 => GoodRun.allocExpr (.forE a1 a2 a3) ptr))))
            (by simp [exprPtrs, exprOptPtrs, exprListPtrs, blockPtrs, blockOptPtrs, blockAt0Ptrs, blockAt1Ptrs, stmtListPtrs, armListPtrs, fieldListPtrs, patPtrs, patListPtrs, patOptPtrs, paramListPtrs, pcat]) (by simp [exprPtrs, exprOptPtrs, exprListPtrs, blockPtrs, blockOptPtrs, blockAt0Ptrs, blockAt1Ptrs, stmtListPtrs, armListPtrs, fieldListPtrs, patPtrs, patListPtrs, patOptPtrs, paramListPtrs, pcat])
        | callExpr ptr callee argList =>
          rcases argList with _ | l
          · simp at h
            exact GoodRun.cast
              (GoodRun.seq (IH2 callee (by omega)) (fun a1 => GoodRun.allocExpr (.call a1 []) ptr))
              (by simp [exprPtrs, exprOptPtrs, exprListPtrs, blockPtrs, blockOptPtrs, blockAt0Ptrs, blockAt1Ptrs, stmtListPtrs, armListPtrs, fieldListPtrs, patPtrs, patListPtrs, patOptPtrs, paramListPtrs, pcat]) (by simp [exprPtrs, exprOptPtrs, exprListPtrs, blockPtrs, blockOptPtrs, blockAt0Ptrs, blockAt1Ptrs, stmtListPtrs, armListPtrs, fieldListPtrs, patPtrs, patListPtrs, patOptPtrs, paramListPtrs, pcat])
          · simp at h
            exact GoodRun.cast
              (GoodRun.seq (IH2 callee (by omega)) (fun a1 => GoodRun.seq (IH3 l (by omega)) (fun a2 => GoodRun.allocExpr (.call a1 a2) ptr)))
              (by simp [exprPtrs, exprOptPtrs, exprListPtrs, blockPtrs, blockOptPtrs, blockAt0Ptrs, blockAt1Ptrs, stmtListPtrs, armListPtrs, fieldListPtrs, patPtrs, patListPtrs, patOptPtrs, paramListPtrs, pcat]) (by simp [exprPtrs, exprOptPtrs, exprListPtrs, blockPtrs, blockOptPtrs, blockAt0Ptrs, blockAt1Ptrs, stmtListPtrs, armListPtrs, fieldListPtrs, patPtrs, patListPtrs, patOptPtrs, paramListPtrs, pcat])
        | methodCallExpr ptr receiver argList nameRef =>
          rcases argList with _ | l
          · simp at h
            exact GoodRun.cast
              (GoodRun.seq (IH2 receiver (by omega)) (fun a1 => GoodRun.allocExpr (.methodCall a1 _ []) ptr))
              (by simp [exprPtrs, exprOptPtrs, exprListPtrs, blockPtrs, blockOptPtrs, blockAt0Ptrs, blockAt1Ptrs, stmtListPtrs, armListPtrs, fieldListPtrs, patPtrs, patListPtrs, patOptPtrs, paramListPtrs, pcat]) (by simp [exprPtrs, exprOptPtrs, exprListPtrs, blockPtrs, blockOptPtrs, blockAt0Ptrs, blockAt1Ptrs, stmtListPtrs, armListPtrs, fieldListPtrs, patPtrs, patListPtrs, patOptPtrs, paramListPtrs, pcat])
          · simp at h
            exact GoodRun.cast
              (GoodRun.seq (IH2 receiver (by omega)) (fun a1 => GoodRun.seq (IH3 l (by omega)) (fun a2 => GoodRun.allocExpr (.methodCall a1 _ a2) ptr)))
              (by simp [exprPtrs, exprOptPtrs, exprListPtrs, blockPtrs, blockOptPtrs, blockAt0Ptrs, blockAt1Ptrs, stmtListPtrs, armListPtrs, fieldListPtrs, patPtrs, patListPtrs, patOptPtrs, paramListPtrs, pcat]) (by simp [exprPtrs, exprOptPtrs, exprListPtrs, blockPtrs, blockOptPtrs, blockAt0Ptrs, blockAt1Ptrs, stmtListPtrs, armListPtrs, fieldListPtrs, patPtrs, patListPtrs, patOptPtrs, paramListPtrs, pcat])
        | matchExpr ptr expr armList =>
          rcases armList with _ | arms
          · simp at h
            exact GoodRun.cast
              (GoodRun.seq (IH2 expr (by omega)) (fun a1 => GoodRun.allocExpr (.matchE a1 []) ptr))
              (by simp [exprPtrs, exprOptPtrs, exprListPtrs, blockPtrs, blockOptPtrs, blockAt0Ptrs, blockAt1Ptrs, stmtListPtrs, armListPtrs, fieldListPtrs, patPtrs, patListPtrs, patOptPtrs, paramListPtrs, pcat]) (by simp [exprPtrs, exprOptPtrs, exprListPtrs, blockPtrs, blockOptPtrs, blockAt0Ptrs, blockAt1Ptrs, stmtListPtrs, armListPtrs, fieldListPtrs, patPtrs, patListPtrs, patOptPtrs, paramListPtrs, pcat])
          · simp at h
            exact GoodRun.cast
              (GoodRun.seq (IH2 expr (by omega)) (fun a1 => GoodRun.seq (IH9 arms (by omega)) (fun a2 => GoodRun.allocExpr (.matchE a1 a2) ptr)))
              (by simp [exprPtrs, exprOptPtrs, exprListPtrs, blockPtrs, blockOptPtrs, blockAt0Ptrs, blockAt1Ptrs, stmtListPtrs, armListPtrs, fieldListPtrs, patPtrs, patListPtrs, patOptPtrs, paramListPtrs, pcat]) (by simp [exprPtrs, exprOptPtrs, exprListPtrs, blockPtrs, blockOptPtrs, blockAt0Ptrs, blockAt1Ptrs, stmtListPtrs, armListPtrs, fieldListPtrs, patPtrs, patListPtrs, patOptPtrs, paramListPtrs, pcat])
        | pathExpr ptr path =>
          exact GoodRun.cast
            (GoodRun.allocExpr _ ptr)
            (by simp [exprPtrs, exprOptPtrs, exprListPtrs, blockPtrs, blockOptPtrs, blockAt0Ptrs, blockAt1Ptrs, stmtListPtrs, armListPtrs, fieldListPtrs, patPtrs, patListPtrs, patOptPtrs, paramListPtrs, pcat]) (by simp [exprPtrs, exprOptPtrs, exprListPtrs, blockPtrs, blockOptPtrs, blockAt0Ptrs, blockAt1Ptrs, stmtListPtrs, armListPtrs, fieldListPtrs, patPtrs, patListPtrs, patOptPtrs, paramListPtrs, pcat])
        | continueExpr ptr =>
          exact GoodRun.cast
            (GoodRun.allocExpr .continueE ptr)
            (by simp [exprPtrs, exprOptPtrs, exprListPtrs, blockPtrs, blockOptPtrs, blockAt0Ptrs, blockAt1Ptrs, stmtListPtrs, armListPtrs, fieldListPtrs, patPtrs, patListPtrs, patOptPtrs, paramListPtrs, pcat]) (by simp [exprPtrs, exprOptPtrs, exprListPtrs, blockPtrs, blockOptPtrs, blockAt0Ptrs, blockAt1Ptrs, stmtListPtrs, armListPtrs, fieldListPtrs, patPtrs, patListPtrs, patOptPtrs, paramListPtrs, pcat])
        | breakExpr ptr expr =>
          simp at h
          exact GoodRun.cast
            (GoodRun.seq (IH2b expr (by omega)) (fun a => GoodRun.allocExpr (.breakE a) ptr))
            (by simp [exprPtrs, exprOptPtrs, exprListPtrs, blockPtrs, blockOptPtrs, blockAt0Ptrs, blockAt1Ptrs, stmtListPtrs, armListPtrs, fieldListPtrs, patPtrs, patListPtrs, patOptPtrs, paramListPtrs, pcat]) (by simp [exprPtrs, exprOptPtrs, exprListPtrs, blockPtrs, blockOptPtrs, blockAt0Ptrs, blockAt1Ptrs, stmtListPtrs, armListPtrs, fieldListPtrs, patPtrs, patListPtrs, patOptPtrs, paramListPtrs, pcat])
        | parenExpr ptr inner =>
          simp at h
          exact GoodRun.cast
            (GoodRun.seq (IH2 inner (by omega)) (fun a => GoodRun.parenStep ptr a))
            (by simp [exprPtrs, exprOptPtrs, exprListPtrs, blockPtrs, blockOptPtrs, blockAt0Ptrs, blockAt1Ptrs, stmtListPtrs, armListPtrs, fieldListPtrs, patPtrs, patListPtrs, patOptPtrs, paramListPtrs, pcat]) (by simp [exprPtrs, exprOptPtrs, exprListPtrs, blockPtrs, blockOptPtrs, blockAt0Ptrs, blockAt1Ptrs, stmtListPtrs, armListPtrs, fieldListPtrs, patPtrs, patListPtrs, patOptPtrs, paramListPtrs, pcat])
        | returnExpr ptr expr =>
          simp at h
          exact GoodRun.cast
            (GoodRun.seq (IH2b expr (by omega)) (fun a => GoodRun.allocExpr (.returnE a) ptr))
            (by simp [exprPtrs, exprOptPtrs, exprListPtrs, blockPtrs, blockOptPtrs, blockAt0Ptrs, blockAt1Ptrs, stmtListPtrs, armListPtrs, fieldListPtrs, patPtrs, patListPtrs, patOptPtrs, paramListPtrs, pcat]) (by simp [exprPtrs, exprOptPtrs, exprListPtrs, blockPtrs, blockOptPtrs, blockAt0Ptrs, blockAt1Ptrs, stmtListPtrs, armListPtrs, fieldListPtrs, patPtrs, patListPtrs, patOptPtrs, paramListPtrs, pcat])
        | structLit ptr path nfl spread =>
          rcases nfl with _ | fields
          · simp at h
            exact GoodRun.cast
              (GoodRun.seq (IH2b spread (by omega)) (fun a2 => GoodRun.allocExpr (.structLit (path.bind Path.from_ast) [] a2) ptr))
              (by simp [exprPtrs, exprOptPtrs, exprListPtrs, blockPtrs, blockOptPtrs, blockAt0Ptrs, blockAt1Ptrs, stmtListPtrs, armListPtrs, fieldListPtrs, patPtrs, patListPtrs, patOptPtrs, paramListPtrs, pcat]) (by simp [exprPtrs, exprOptPtrs, exprListPtrs, blockPtrs, blockOptPtrs, blockAt0Ptrs, blockAt1Ptrs, stmtListPtrs, armListPtrs, fieldListPtrs, patPtrs, patListPtrs, patOptPtrs, paramListPtrs, pcat])
          · simp at h
            exact GoodRun.cast
              (GoodRun.seq (IH10 fields (by omega)) (fun a1 => GoodRun.seq (IH2b spread (by omega)) (fun a2 => GoodRun.allocExpr (.structLit (path.bind Path.from_ast) a1 a2) ptr)))
              (by simp [exprPtrs, exprOptPtrs, exprListPtrs, blockPtrs, blockOptPtrs, blockAt0Ptrs, blockAt1Ptrs, stmtListPtrs, armListPtrs, fieldListPtrs, patPtrs, patListPtrs, patOptPtrs, paramListPtrs, pcat]) (by simp [exprPtrs, exprOptPtrs, exprListPtrs, blockPtrs, blockOptPtrs, blockAt0Ptrs, blockAt1Ptrs, stmtListPtrs, armListPtrs, fieldListPtrs, patPtrs, patListPtrs, patOptPtrs, paramListPtrs, pcat])
        | fieldExpr ptr expr nameRef =>
          simp at h
          exact GoodRun.cast
            (GoodRun.seq (IH2 expr (by omega)) (fun a => GoodRun.allocExpr (.field a _) ptr))
            (by simp [exprPtrs, exprOptPtrs, exprListPtrs, blockPtrs, blockOptPtrs, blockAt0Ptrs, blockAt1Ptrs, stmtListPtrs, armListPtrs, fieldListPtrs, patPtrs, patListPtrs, patOptPtrs, paramListPtrs, pcat]) (by simp [exprPtrs, exprOptPtrs, exprListPtrs, blockPtrs, blockOptPtrs, blockAt0Ptrs, blockAt1Ptrs, stmtListPtrs, armListPtrs, fieldListPtrs, patPtrs, patListPtrs, patOptPtrs, paramListPtrs, pcat])
        | tryExpr ptr expr =>
          simp at h
          exact GoodRun.cast
            (GoodRun.seq (IH2 expr (by omega)) (fun a => GoodRun.allocExpr (.tryE a) ptr))
            (by simp [exprPtrs, exprOptPtrs, exprListPtrs, blockPtrs, blockOptPtrs, blockAt0Ptrs, blockAt1Ptrs, stmtListPtrs, armListPtrs, fieldListPtrs, patPtrs, patListPtrs, patOptPtrs, paramListPtrs, pcat]) (by simp [exprPtrs, exprOptPtrs, exprListPtrs, blockPtrs, blockOptPtrs, blockAt0Ptrs, blockAt1Ptrs, stmtListPtrs, armListPtrs, fieldListPtrs, patPtrs, patListPtrs, patOptPtrs, paramListPtrs, pcat])
        | castExpr ptr expr typeRef =>
          simp at h
          exact GoodRun.cast
            (GoodRun.seq (IH2 expr (by omega)) (fun a => GoodRun.allocExpr (.cast a (TypeRef.from_ast_opt typeRef)) ptr))
            (by simp [exprPtrs, exprOptPtrs, exprListPtrs, blockPtrs, blockOptPtrs, blockAt0Ptrs, blockAt1Ptrs, stmtListPtrs, armListPtrs, fieldListPtrs, patPtrs, patListPtrs, patOptPtrs, paramListPtrs, pcat]) (by simp [exprPtrs, exprOptPtrs, exprListPtrs, blockPtrs, blockOptPtrs, blockAt0Ptrs, blockAt1Ptrs, stmtListPtrs, armListPtrs, fieldListPtrs, patPtrs, patListPtrs, patOptPtrs, paramListPtrs, pcat])
        | refExpr ptr expr isMut =>
          simp at h
          exact GoodRun.cast
            (GoodRun.seq (IH2 expr (by omega)) (fun a => GoodRun.allocExpr (.ref a (Mutability.from_mutable isMut)) ptr))
            (by simp [exprPtrs, exprOptPtrs, exprListPtrs, blockPtrs, blockOptPtrs, blockAt0Ptrs, blockAt1Ptrs, stmtListPtrs, armListPtrs, fieldListPtrs, patPtrs, patListPtrs, patOptPtrs, paramListPtrs, pcat]) (by simp [exprPtrs, exprOptPtrs, exprListPtrs, blockPtrs, blockOptPtrs, blockAt0Ptrs, blockAt1Ptrs, stmtListPtrs, armListPtrs, fieldListPtrs, patPtrs, patListPtrs, patOptPtrs, paramListPtrs, pcat])
        | prefixExpr ptr expr op =>
          simp at h
          exact GoodRun.cast
            (GoodRun.seq (IH2 expr (by omega)) (fun a => GoodRun.allocExpr (.unaryOp a op) ptr))
            (by simp [exprPtrs, exprOptPtrs, exprListPtrs, blockPtrs, blockOptPtrs, blockAt0Ptrs, blockAt1Ptrs, stmtListPtrs, armListPtrs, fieldListPtrs, patPtrs, patListPtrs, patOptPtrs, paramListPtrs, pcat]) (by simp [exprPtrs, exprOptPtrs, exprListPtrs, blockPtrs, blockOptPtrs, blockAt0Ptrs, blockAt1Ptrs, stmtListPtrs, armListPtrs, fieldListPtrs, patPtrs, patListPtrs, patOptPtrs, paramListPtrs, pcat])
        | lambdaExpr ptr paramList body =>
          rcases paramList with _ | params
          · simp at h
            exact GoodRun.cast
              (GoodRun.seq (IH2 body (by omega)) (fun a => GoodRun.allocExpr (.lambda [] [] a) ptr))
              (by simp [exprPtrs, exprOptPtrs, exprListPtrs, blockPtrs, blockOptPtrs, blockAt0Ptrs, blockAt1Ptrs, stmtListPtrs, armListPtrs, fieldListPtrs, patPtrs, patListPtrs, patOptPtrs, paramListPtrs, pcat]) (by simp [exprPtrs, exprOptPtrs, exprListPtrs, blockPtrs, blockOptPtrs, blockAt0Ptrs, blockAt1Ptrs, stmtListPtrs, armListPtrs, fieldListPtrs, patPtrs, patListPtrs, patOptPtrs, paramListPtrs, pcat])
          · simp at h
            exact GoodRun.cast
              (GoodRun.seq (IH14 params (by omega)) (fun a1 => GoodRun.seq (IH2 body (by omega)) (fun a2 => GoodRun.allocExpr (.lambda a1.1 a1.2 a2) ptr)))
              (by simp [exprPtrs, exprOptPtrs, exprListPtrs, blockPtrs, blockOptPtrs, blockAt0Ptrs, blockAt1Ptrs, stmtListPtrs, armListPtrs, fieldListPtrs, patPtrs, patListPtrs, patOptPtrs, paramListPtrs, pcat]) (by simp [exprPtrs, exprOptPtrs, exprListPtrs, blockPtrs, blockOptPtrs, blockAt0Ptrs, blockAt1Ptrs, stmtListPtrs, armListPtrs, fieldListPtrs, patPtrs, patListPtrs, patOptPtrs, paramListPtrs, pcat])
        | binExpr ptr lhs rhs op =>
          simp at h
          exact GoodRun.cast
            (GoodRun.seq (IH2 lhs (by omega)) (fun a1 => GoodRun.seq (IH2 rhs (by omega)) (fun a2 => GoodRun.allocExpr (.binaryOp a1 a2 op) ptr)))
            (by simp [exprPtrs, exprOptPtrs, exprListPtrs, blockPtrs, blockOptPtrs, blockAt0Ptrs, blockAt1Ptrs, stmtListPtrs, armListPtrs, fieldListPtrs, patPtrs, patListPtrs, patOptPtrs, paramListPtrs, pcat]) (by simp [exprPtrs, exprOptPtrs, exprListPtrs, blockPtrs, blockOptPtrs, blockAt0Ptrs, blockAt1Ptrs, stmtListPtrs, armListPtrs, fieldListPtrs, patPtrs, patListPtrs, patOptPtrs, paramListPtrs, pcat])
        | labelExpr ptr =>
          exact GoodRun.cast
            (GoodRun.allocExpr .missing ptr)
            (by simp [exprPtrs, exprOptPtrs, exprListPtrs, blockPtrs, blockOptPtrs, blockAt0Ptrs, blockAt1Ptrs, stmtListPtrs, armListPtrs, fieldListPtrs, patPtrs, patListPtrs, patOptPtrs, paramListPtrs, pcat]) (by simp [exprPtrs, exprOptPtrs, exprListPtrs, blockPtrs, blockOptPtrs, blockAt0Ptrs, blockAt1Ptrs, stmtListPtrs, armListPtrs, fieldListPtrs, patPtrs, patListPtrs, patOptPtrs, paramListPtrs, pcat])
        | indexExpr ptr =>
          exact GoodRun.cast
            (GoodRun.allocExpr .missing ptr)
            (by simp [exprPtrs, exprOptPtrs, exprListPtrs, blockPtrs, blockOptPtrs, blockAt0Ptrs, blockAt1Ptrs, stmtListPtrs, armListPtrs, fieldListPtrs, patPtrs, patListPtrs, patOptPtrs, paramListPtrs, pcat]) (by simp [exprPtrs, exprOptPtrs, exprListPtrs, blockPtrs, blockOptPtrs, blockAt0Ptrs, blockAt1Ptrs, stmtListPtrs, armListPtrs, fieldListPtrs, patPtrs, patListPtrs, patOptPtrs, paramListPtrs, pcat])
        | tupleExpr ptr =>
          exact GoodRun.cast
            (GoodRun.allocExpr .missing ptr)
            (by simp [exprPtrs, exprOptPtrs, exprListPtrs, blockPtrs, blockOptPtrs, blockAt0Ptrs, blockAt1Ptrs, stmtListPtrs, armListPtrs, fieldListPtrs, patPtrs, patListPtrs, patOptPtrs, paramListPtrs, pcat]) (by simp [exprPtrs, exprOptPtrs, exprListPtrs, blockPtrs, blockOptPtrs, blockAt0Ptrs, blockAt1Ptrs, stmtListPtrs, armListPtrs, fieldListPtrs, patPtrs, patListPtrs, patOptPtrs, paramListPtrs, pcat])
        | arrayExpr ptr =>
          exact GoodRun.cast
            (GoodRun.allocExpr .missing ptr)
            (by simp [exprPtrs, exprOptPtrs, exprListPtrs, blockPtrs, blockOptPtrs, blockAt0Ptrs, blockAt1Ptrs, stmtListPtrs, armListPtrs, fieldListPtrs, patPtrs, patListPtrs, patOptPtrs, paramListPtrs, pcat]) (by simp [exprPtrs, exprOptPtrs, exprListPtrs, blockPtrs, blockOptPtrs, blockAt0Ptrs, blockAt1Ptrs, stmtListPtrs, armListPtrs, fieldListPtrs, patPtrs, patListPtrs, patOptPtrs, paramListPtrs, pcat])
        | rangeExpr ptr =>
          exact GoodRun.cast
            (GoodRun.allocExpr .missing ptr)
            (by simp [exprPtrs, exprOptPtrs, exprListPtrs, blockPtrs, blockOptPtrs, blockAt0Ptrs, blockAt1Ptrs, stmtListPtrs, armListPtrs, fieldListPtrs, patPtrs, patListPtrs, patOptPtrs, paramListPtrs, pcat]) (by simp [exprPtrs, exprOptPtrs, exprListPtrs, blockPtrs, blockOptPtrs, blockAt0Ptrs, blockAt1Ptrs, stmtListPtrs, armListPtrs, fieldListPtrs, patPtrs, patListPtrs, patOptPtrs, paramListPtrs, pcat])
        | literal ptr =>
          exact GoodRun.cast
            (GoodRun.allocExpr .missing ptr)
            (by simp [exprPtrs, exprOptPtrs, exprListPtrs, blockPtrs, blockOptPtrs, blockAt0Ptrs, blockAt1Ptrs, stmtListPtrs, armListPtrs, fieldListPtrs, patPtrs, patListPtrs, patOptPtrs, paramListPtrs, pcat]) (by simp [exprPtrs, exprOptPtrs, exprListPtrs, blockPtrs, blockOptPtrs, blockAt0Ptrs, blockAt1Ptrs, stmtListPtrs, armListPtrs, fieldListPtrs, patPtrs, patListPtrs, patOptPtrs, paramListPtrs, pcat])
      · -- collectExprOpt
        intro oe h
        rcases oe with _ | e
        · exact GoodRun.cast
            (GoodRun.allocExprRaw (Or.inl rfl))
            (by simp [exprPtrs, exprOptPtrs, exprListPtrs, blockPtrs, blockOptPtrs, blockAt0Ptrs, blockAt1Ptrs, stmtListPtrs, armListPtrs, fieldListPtrs, patPtrs, patListPtrs, patOptPtrs, paramListPtrs, pcat]) (by simp [exprPtrs, exprOptPtrs, exprListPtrs, blockPtrs, blockOptPtrs, blockAt0Ptrs, blockAt1Ptrs, stmtListPtrs, armListPtrs, fieldListPtrs, patPtrs, patListPtrs, patOptPtrs, paramListPtrs, pcat])
        · simp at h
          exact GoodRun.cast
            (IH1 e (by omega))
            (by simp [exprPtrs, exprOptPtrs, exprListPtrs, blockPtrs, blockOptPtrs, blockAt0Ptrs, blockAt1Ptrs, stmtListPtrs, armListPtrs, fieldListPtrs, patPtrs, patListPtrs, patOptPtrs, paramListPtrs, pcat]) (by simp [exprPtrs, exprOptPtrs, exprListPtrs, blockPtrs, blockOptPtrs, blockAt0Ptrs, blockAt1Ptrs, stmtListPtrs, armListPtrs, fieldListPtrs, patPtrs, patListPtrs, patOptPtrs, paramListPtrs, pcat])
      · -- collectExprMapOpt
        intro oe h
        rcases oe with _ | e
        · exact GoodRun.cast
            (GoodRun.pure (none : Option Nat))
            (by simp [exprPtrs, exprOptPtrs, exprListPtrs, blockPtrs, blockOptPtrs, blockAt0Ptrs, blockAt1Ptrs, stmtListPtrs, armListPtrs, fieldListPtrs, patPtrs, patListPtrs, patOptPtrs, paramListPtrs, pcat]) (by simp [exprPtrs, exprOptPtrs, exprListPtrs, blockPtrs, blockOptPtrs, blockAt0Ptrs, blockAt1Ptrs, stmtListPtrs, armListPtrs, fieldListPtrs, patPtrs, patListPtrs, patOptPtrs, paramListPtrs, pcat])
        · simp at h
          exact GoodRun.cast
            (GoodRun.seq (IH1 e (by omega)) (fun a => GoodRun.pure (some a)))
            (by simp [exprPtrs, exprOptPtrs, exprListPtrs, blockPtrs, blockOptPtrs, blockAt0Ptrs, blockAt1Ptrs, stmtListPtrs, armListPtrs, fieldListPtrs, patPtrs, patListPtrs, patOptPtrs, paramListPtrs, pcat]) (by simp [exprPtrs, exprOptPtrs, exprListPtrs, blockPtrs, blockOptPtrs, blockAt0Ptrs, blockAt1Ptrs, stmtListPtrs, armListPtrs, fieldListPtrs, patPtrs, patListPtrs, patOptPtrs, paramListPtrs, pcat])
      · -- collectExprList
        intro es h
        cases es with
        | nil =>
          exact GoodRun.cast
            (GoodRun.pure ([] : List Nat))
            (by simp [exprPtrs, exprOptPtrs, exprListPtrs, blockPtrs, blockOptPtrs, blockAt0Ptrs, blockAt1Ptrs, stmtListPtrs, armListPtrs, fieldListPtrs, patPtrs, patListPtrs, patOptPtrs, paramListPtrs, pcat]) (by simp [exprPtrs, exprOptPtrs, exprListPtrs, blockPtrs, blockOptPtrs, blockAt0Ptrs, blockAt1Ptrs, stmtListPtrs, armListPtrs, fieldListPtrs, patPtrs, patListPtrs, patOptPtrs, paramListPtrs, pcat])
        | cons e es =>
          simp at h
          exact GoodRun.cast
            (GoodRun.seq (IH1 e (by omega)) (fun a => GoodRun.seq (IH3 es (by omega)) (fun as2 => GoodRun.pure (a :: as2))))
            (by simp [exprPtrs, exprOptPtrs, exprListPtrs, blockPtrs, blockOptPtrs, blockAt0Ptrs, blockAt1Ptrs, stmtListPtrs, armListPtrs, fieldListPtrs, patPtrs, patListPtrs, patOptPtrs, paramListPtrs, pcat]) (by simp [exprPtrs, exprOptPtrs, exprListPtrs, blockPtrs, blockOptPtrs, blockAt0Ptrs, blockAt1Ptrs, stmtListPtrs, armListPtrs, fieldListPtrs, patPtrs, patListPtrs, patOptPtrs, paramListPtrs, pcat])
      · -- collectBlock
        intro b h
        cases b with
        | mk ptr stmts tail =>
          simp at h
          exact GoodRun.cast
            (GoodRun.seq (IH8 stmts (by omega)) (fun a1 => GoodRun.seq (IH2b tail (by omega)) (fun a2 => GoodRun.allocExpr (.block a1 a2) ptr)))
            (by simp [exprPtrs, exprOptPtrs, exprListPtrs, blockPtrs, blockOptPtrs, blockAt0Ptrs, blockAt1Ptrs, stmtListPtrs, armListPtrs, fieldListPtrs, patPtrs, patListPtrs, patOptPtrs, paramListPtrs, pcat]) (by simp [exprPtrs, exprOptPtrs, exprListPtrs, blockPtrs, blockOptPtrs, blockAt0Ptrs, blockAt1Ptrs, stmtListPtrs, armListPtrs, fieldListPtrs, patPtrs, patListPtrs, patOptPtrs, paramListPtrs, pcat])
      · -- collectBlockOpt
        intro ob h
        rcases ob with _ | b
        · exact GoodRun.cast
            (GoodRun.allocExprRaw (Or.inl rfl))
            (by simp [exprPtrs, exprOptPtrs, exprListPtrs, blockPtrs, blockOptPtrs, blockAt0Ptrs, blockAt1Ptrs, stmtListPtrs, armListPtrs, fieldListPtrs, patPtrs, patListPtrs, patOptPtrs, paramListPtrs, pcat]) (by simp [exprPtrs, exprOptPtrs, exprListPtrs, blockPtrs, blockOptPtrs, blockAt0Ptrs, blockAt1Ptrs, stmtListPtrs, armListPtrs, fieldListPtrs, patPtrs, patListPtrs, patOptPtrs, paramListPtrs, pcat])
        · simp at h
          exact GoodRun.cast
            (IH4 b (by omega))
            (by simp [exprPtrs, exprOptPtrs, exprListPtrs, blockPtrs, blockOptPtrs, blockAt0Ptrs, blockAt1Ptrs, stmtListPtrs, armListPtrs, fieldListPtrs, patPtrs, patListPtrs, patOptPtrs, paramListPtrs, pcat]) (by simp [exprPtrs, exprOptPtrs, exprListPtrs, blockPtrs, blockOptPtrs, blockAt0Ptrs, blockAt1Ptrs, stmtListPtrs, armListPtrs, fieldListPtrs, patPtrs, patListPtrs, patOptPtrs, paramListPtrs, pcat])
      · -- collectBlockAt0
        intro bs h
        cases bs with
        | nil =>
          exact GoodRun.cast
            (GoodRun.allocExprRaw (Or.inl rfl))
            (by simp [exprPtrs, exprOptPtrs, exprListPtrs, blockPtrs, blockOptPtrs, blockAt0Ptrs, blockAt1Ptrs, stmtListPtrs, armListPtrs, fieldListPtrs, patPtrs, patListPtrs, patOptPtrs, paramListPtrs, pcat]) (by simp [exprPtrs, exprOptPtrs, exprListPtrs, blockPtrs, blockOptPtrs, blockAt0Ptrs, blockAt1Ptrs, stmtListPtrs, armListPtrs, fieldListPtrs, patPtrs, patListPtrs, patOptPtrs, paramListPtrs, pcat])
        | cons b rest =>
          simp at h
          exact GoodRun.cast
            (IH4 b (by omega))
            (by simp [exprPtrs, exprOptPtrs, exprListPtrs, blockPtrs, blockOptPtrs, blockAt0Ptrs, blockAt1Ptrs, stmtListPtrs, armListPtrs, fieldListPtrs, patPtrs, patListPtrs, patOptPtrs, paramListPtrs, pcat]) (by simp [exprPtrs, exprOptPtrs, exprListPtrs, blockPtrs, blockOptPtrs, blockAt0Ptrs, blockAt1Ptrs, stmtListPtrs, armListPtrs, fieldListPtrs, patPtrs, patListPtrs, patOptPtrs, paramListPtrs, pcat])
      · -- collectBlockAt1OrEmpty
        intro bs h
        cases bs with
        | nil =>
          exact GoodRun.cast
            (GoodRun.emptyBlockRun)
            (by simp [exprPtrs, exprOptPtrs, exprListPtrs, blockPtrs, blockOptPtrs, blockAt0Ptrs, blockAt1Ptrs, stmtListPtrs, armListPtrs, fieldListPtrs, patPtrs, patListPtrs, patOptPtrs, paramListPtrs, pcat]) (by simp [exprPtrs, exprOptPtrs, exprListPtrs, blockPtrs, blockOptPtrs, blockAt0Ptrs, blockAt1Ptrs, stmtListPtrs, armListPtrs, fieldListPtrs, patPtrs, patListPtrs, patOptPtrs, paramListPtrs, pcat])
        | cons b1 rest =>
          cases rest with
          | nil =>
            exact GoodRun.cast
              (GoodRun.emptyBlockRun)
              (by simp [exprPtrs, exprOptPtrs, exprListPtrs, blockPtrs, blockOptPtrs, blockAt0Ptrs, blockAt1Ptrs, stmtListPtrs, armListPtrs, fieldListPtrs, patPtrs, patListPtrs, patOptPtrs, paramListPtrs, pcat]) (by simp [exprPtrs, exprOptPtrs, exprListPtrs, blockPtrs, blockOptPtrs, blockAt0Ptrs, blockAt1Ptrs, stmtListPtrs, armListPtrs, fieldListPtrs, patPtrs, patListPtrs, patOptPtrs, paramListPtrs, pcat])
          | cons b2 rest2 =>
            simp at h
            exact GoodRun.cast
              (IH4 b2 (by omega))
              (by simp [exprPtrs, exprOptPtrs, exprListPtrs, blockPtrs, blockOptPtrs, blockAt0Ptrs, blockAt1Ptrs, stmtListPtrs, armListPtrs, fieldListPtrs, patPtrs, patListPtrs, patOptPtrs, paramListPtrs, pcat]) (by simp [exprPtrs, exprOptPtrs, exprListPtrs, blockPtrs, blockOptPtrs, blockAt0Ptrs, blockAt1Ptrs, stmtListPtrs, armListPtrs, fieldListPtrs, patPtrs, patListPtrs, patOptPtrs, paramListPtrs, pcat])
      · -- collectBlockAt1Map
        intro bs h
        cases bs with
        | nil =>
          exact GoodRun.cast
            (GoodRun.pure (none : Option Nat))
            (by simp [exprPtrs, exprOptPtrs, exprListPtrs, blockPtrs, blockOptPtrs, blockAt0Ptrs, blockAt1Ptrs, stmtListPtrs, armListPtrs, fieldListPtrs, patPtrs, patListPtrs, patOptPtrs, paramListPtrs, pcat]) (by simp [exprPtrs, exprOptPtrs, exprListPtrs, blockPtrs, blockOptPtrs, blockAt0Ptrs, blockAt1Ptrs, stmtListPtrs, armListPtrs, fieldListPtrs, patPtrs, patListPtrs, patOptPtrs, paramListPtrs, pcat])
        | cons b1 rest =>
          cases rest with
          | nil =>
            exact GoodRun.cast
              (GoodRun.pure (none : Option Nat))
              (by simp [exprPtrs, exprOptPtrs, exprListPtrs, blockPtrs, blockOptPtrs, blockAt0Ptrs, blockAt1Ptrs, stmtListPtrs, armListPtrs, fieldListPtrs, patPtrs, patListPtrs, patOptPtrs, paramListPtrs, pcat]) (by simp [exprPtrs, exprOptPtrs, exprListPtrs, blockPtrs, blockOptPtrs, blockAt0Ptrs, blockAt1Ptrs, stmtListPtrs, armListPtrs, fieldListPtrs, patPtrs, patListPtrs, patOptPtrs, paramListPtrs, pcat])
          | cons b2 rest2 =>
            simp at h
            exact GoodRun.cast
              (GoodRun.seq (IH4 b2 (by omega)) (fun a => GoodRun.pure (some a)))
              (by simp [exprPtrs, exprOptPtrs, exprListPtrs, blockPtrs, blockOptPtrs, blockAt0Ptrs, blockAt1Ptrs, stmtListPtrs, armListPtrs, fieldListPtrs, patPtrs, patListPtrs, patOptPtrs, paramListPtrs, pcat]) (by simp [exprPtrs, exprOptPtrs, exprListPtrs, blockPtrs, blockOptPtrs, blockAt0Ptrs, blockAt1Ptrs, stmtListPtrs, armListPtrs, fieldListPtrs, patPtrs, patListPtrs, patOptPtrs, paramListPtrs, pcat])
      · -- collectStmtList
        intro ss h
        cases ss with
        | nil =>
          exact GoodRun.cast
            (GoodRun.pure ([] : List Statement))
            (by simp [exprPtrs, exprOptPtrs, exprListPtrs, blockPtrs, blockOptPtrs, blockAt0Ptrs, blockAt1Ptrs, stmtListPtrs, armListPtrs, fieldListPtrs, patPtrs, patListPtrs, patOptPtrs, paramListPtrs, pcat]) (by simp [exprPtrs, exprOptPtrs, exprListPtrs, blockPtrs, blockOptPtrs, blockAt0Ptrs, blockAt1Ptrs, stmtListPtrs, armListPtrs, fieldListPtrs, patPtrs, patListPtrs, patOptPtrs, paramListPtrs, pcat])
        | cons st ss =>
          cases st with
          | letStmt pat typeRef init =>
            simp at h
            exact GoodRun.cast
              (GoodRun.seq (IH12 pat (by omega)) (fun a1 => GoodRun.seq (IH2b init (by omega)) (fun a2 => GoodRun.seq (IH8 ss (by omega)) (fun as2 => GoodRun.pure (Statement.letStmt a1 (typeRef.map TypeRef.from_ast) a2 :: as2)))))
              (by simp [exprPtrs, exprOptPtrs, exprListPtrs, blockPtrs, blockOptPtrs, blockAt0Ptrs, blockAt1Ptrs, stmtListPtrs, armListPtrs, fieldListPtrs, patPtrs, patListPtrs, patOptPtrs, paramListPtrs, pcat]) (by simp [exprPtrs, exprOptPtrs, exprListPtrs, blockPtrs, blockOptPtrs, blockAt0Ptrs, blockAt1Ptrs, stmtListPtrs, armListPtrs, fieldListPtrs, patPtrs, patListPtrs, patOptPtrs, paramListPtrs, pcat])
          | exprStmt e =>
            simp at h
            exact GoodRun.cast
              (GoodRun.seq (IH2 e (by omega)) (fun a => GoodRun.seq (IH8 ss (by omega)) (fun as2 => GoodRun.pure (Statement.exprStmt a :: as2))))
              (by simp [exprPtrs, exprOptPtrs, exprListPtrs, blockPtrs, blockOptPtrs, blockAt0Ptrs, blockAt1Ptrs, stmtListPtrs, armListPtrs, fieldListPtrs, patPtrs, patListPtrs, patOptPtrs, paramListPtrs, pcat]) (by simp [exprPtrs, exprOptPtrs, exprListPtrs, blockPtrs, blockOptPtrs, blockAt0Ptrs, blockAt1Ptrs, stmtListPtrs, armListPtrs, fieldListPtrs, patPtrs, patListPtrs, patOptPtrs, paramListPtrs, pcat])
      · -- collectArmList
        intro arms h
        cases arms with
        | nil =>
          exact GoodRun.cast
            (GoodRun.pure ([] : List MatchArm))
            (by simp [exprPtrs, exprOptPtrs, exprListPtrs, blockPtrs, blockOptPtrs, blockAt0Ptrs, blockAt1Ptrs, stmtListPtrs, armListPtrs, fieldListPtrs, patPtrs, patListPtrs, patOptPtrs, paramListPtrs, pcat]) (by simp [exprPtrs, exprOptPtrs, exprListPtrs, blockPtrs, blockOptPtrs, blockAt0Ptrs, blockAt1Ptrs, stmtListPtrs, armListPtrs, fieldListPtrs, patPtrs, patListPtrs, patOptPtrs, paramListPtrs, pcat])
        | cons arm arms =>
          cases arm with
          | mk pats expr =>
            simp at h
            exact GoodRun.cast
              (GoodRun.seq (IH13 pats (by omega)) (fun a1 => GoodRun.seq (IH2 expr (by omega)) (fun a2 => GoodRun.seq (IH9 arms (by omega)) (fun as2 => GoodRun.pure (MatchArm.mk a1 a2 :: as2)))))
              (by simp [exprPtrs, exprOptPtrs, exprListPtrs, blockPtrs, blockOptPtrs, blockAt0Ptrs, blockAt1Ptrs, stmtListPtrs, armListPtrs, fieldListPtrs, patPtrs, patListPtrs, patOptPtrs, paramListPtrs, pcat]) (by simp [exprPtrs, exprOptPtrs, exprListPtrs, blockPtrs, blockOptPtrs, blockAt0Ptrs, blockAt1Ptrs, stmtListPtrs, armListPtrs, fieldListPtrs, patPtrs, patListPtrs, patOptPtrs, paramListPtrs, pcat])
      · -- collectFieldList
        intro fs h
        cases fs with
        | nil =>
          exact GoodRun.cast
            (GoodRun.pure ([] : List StructLitField))
            (by simp [exprPtrs, exprOptPtrs, exprListPtrs, blockPtrs, blockOptPtrs, blockAt0Ptrs, blockAt1Ptrs, stmtListPtrs, armListPtrs, fieldListPtrs, patPtrs, patListPtrs, patOptPtrs, paramListPtrs, pcat]) (by simp [exprPtrs, exprOptPtrs, exprListPtrs, blockPtrs, blockOptPtrs, blockAt0Ptrs, blockAt1Ptrs, stmtListPtrs, armListPtrs, fieldListPtrs, patPtrs, patListPtrs, patOptPtrs, paramListPtrs, pcat])
        | cons fld fs =>
          cases fld with
          | mk nameRef fexpr =>
            rcases fexpr with _ | e
            · rcases nameRef with _ | nr
              · simp at h
                exact GoodRun.cast
                  (GoodRun.seq (GoodRun.allocExprRaw (Or.inl rfl)) (fun a => GoodRun.seq (IH10 fs (by omega)) (fun as2 => GoodRun.pure (StructLitField.mk Name.missing a :: as2))))
                  (by simp [exprPtrs, exprOptPtrs, exprListPtrs, blockPtrs, blockOptPtrs, blockAt0Ptrs, blockAt1Ptrs, stmtListPtrs, armListPtrs, fieldListPtrs, patPtrs, patListPtrs, patOptPtrs, paramListPtrs, pcat]) (by simp [exprPtrs, exprOptPtrs, exprListPtrs, blockPtrs, blockOptPtrs, blockAt0Ptrs, blockAt1Ptrs, stmtListPtrs, armListPtrs, fieldListPtrs, patPtrs, patListPtrs, patOptPtrs, paramListPtrs, pcat])
              · simp at h
                exact GoodRun.cast
                  (GoodRun.seq (GoodRun.allocExpr (.path (Path.from_name_ref nr)) nr.ptr) (fun a => GoodRun.seq (IH10 fs (by omega)) (fun as2 => GoodRun.pure (StructLitField.mk nr.as_name a :: as2))))
                  (by simp [exprPtrs, exprOptPtrs, exprListPtrs, blockPtrs, blockOptPtrs, blockAt0Ptrs, blockAt1Ptrs, stmtListPtrs, armListPtrs, fieldListPtrs, patPtrs, patListPtrs, patOptPtrs, paramListPtrs, pcat]) (by simp [exprPtrs, exprOptPtrs, exprListPtrs, blockPtrs, blockOptPtrs, blockAt0Ptrs, blockAt1Ptrs, stmtListPtrs, armListPtrs, fieldListPtrs, patPtrs, patListPtrs, patOptPtrs, paramListPtrs, pcat])
            · simp at h
              exact GoodRun.cast
                (GoodRun.seq (IH1 e (by omega)) (fun a => GoodRun.seq (IH10 fs (by omega)) (fun as2 => GoodRun.pure (StructLitField.mk _ a :: as2))))
                (by simp [exprPtrs, exprOptPtrs, exprListPtrs, blockPtrs, blockOptPtrs, blockAt0Ptrs, blockAt1Ptrs, stmtListPtrs, armListPtrs, fieldListPtrs, patPtrs, patListPtrs, patOptPtrs, paramListPtrs, pcat]) (by simp [exprPtrs, exprOptPtrs, exprListPtrs, blockPtrs, blockOptPtrs, blockAt0Ptrs, blockAt1Ptrs, stmtListPtrs, armListPtrs, fieldListPtrs, patPtrs, patListPtrs, patOptPtrs, paramListPtrs, pcat])
      · -- collectPat
        intro p h
        cases p with
        | bindPat ptr name =>
          exact GoodRun.cast
            (GoodRun.allocPat (.bind _) ptr)
            (by simp [exprPtrs, exprOptPtrs, exprListPtrs, blockPtrs, blockOptPtrs, blockAt0Ptrs, blockAt1Ptrs, stmtListPtrs, armListPtrs, fieldListPtrs, patPtrs, patListPtrs, patOptPtrs, paramListPtrs, pcat]) (by simp [exprPtrs, exprOptPtrs, exprListPtrs, blockPtrs, blockOptPtrs, blockAt0Ptrs, blockAt1Ptrs, stmtListPtrs, armListPtrs, fieldListPtrs, patPtrs, patListPtrs, patOptPtrs, paramListPtrs, pcat])
        | tupleStructPat ptr path args =>
          simp at h
          exact GoodRun.cast
            (GoodRun.seq (IH13 args (by omega)) (fun a => GoodRun.allocPat (.tupleStruct (path.bind Path.from_ast) a) ptr))
            (by simp [exprPtrs, exprOptPtrs, exprListPtrs, blockPtrs, blockOptPtrs, blockAt0Ptrs, blockAt1Ptrs, stmtListPtrs, armListPtrs, fieldListPtrs, patPtrs, patListPtrs, patOptPtrs, paramListPtrs, pcat]) (by simp [exprPtrs, exprOptPtrs, exprListPtrs, blockPtrs, blockOptPtrs, blockAt0Ptrs, blockAt1Ptrs, stmtListPtrs, armListPtrs, fieldListPtrs, patPtrs, patListPtrs, patOptPtrs, paramListPtrs, pcat])
        | otherPat ptr =>
          exact GoodRun.cast
            (GoodRun.allocPat .missing ptr)
            (by simp [exprPtrs, exprOptPtrs, exprListPtrs, blockPtrs, blockOptPtrs, blockAt0Ptrs, blockAt1Ptrs, stmtListPtrs, armListPtrs, fieldListPtrs, patPtrs, patListPtrs, patOptPtrs, paramListPtrs, pcat]) (by simp [exprPtrs, exprOptPtrs, exprListPtrs, blockPtrs, blockOptPtrs, blockAt0Ptrs, blockAt1Ptrs, stmtListPtrs, armListPtrs, fieldListPtrs, patPtrs, patListPtrs, patOptPtrs, paramListPtrs, pcat])
      · -- collectPatOpt
        intro op h
        rcases op with _ | p
        · exact GoodRun.cast
            (GoodRun.allocPatRaw)
            (by simp [exprPtrs, exprOptPtrs, exprListPtrs, blockPtrs, blockOptPtrs, blockAt0Ptrs, blockAt1Ptrs, stmtListPtrs, armListPtrs, fieldListPtrs, patPtrs, patListPtrs, patOptPtrs, paramListPtrs, pcat]) (by simp [exprPtrs, exprOptPtrs, exprListPtrs, blockPtrs, blockOptPtrs, blockAt0Ptrs, blockAt1Ptrs, stmtListPtrs, armListPtrs, fieldListPtrs, patPtrs, patListPtrs, patOptPtrs, paramListPtrs, pcat])
        · simp at h
          exact GoodRun.cast
            (IH11 p (by omega))
            (by simp [exprPtrs, exprOptPtrs, exprListPtrs, blockPtrs, blockOptPtrs, blockAt0Ptrs, blockAt1Ptrs, stmtListPtrs, armListPtrs, fieldListPtrs, patPtrs, patListPtrs, patOptPtrs, paramListPtrs, pcat]) (by simp [exprPtrs, exprOptPtrs, exprListPtrs, blockPtrs, blockOptPtrs, blockAt0Ptrs, blockAt1Ptrs, stmtListPtrs, armListPtrs, fieldListPtrs, patPtrs, patListPtrs, patOptPtrs, paramListPtrs, pcat])
      · -- collectPatList
        intro ps h
        cases ps with
        | nil =>
          exact GoodRun.cast
            (GoodRun.pure ([] : List Nat))
            (by simp [exprPtrs, exprOptPtrs, exprListPtrs, blockPtrs, blockOptPtrs, blockAt0Ptrs, blockAt1Ptrs, stmtListPtrs, armListPtrs, fieldListPtrs, patPtrs, patListPtrs, patOptPtrs, paramListPtrs, pcat]) (by simp [exprPtrs, exprOptPtrs, exprListPtrs, blockPtrs, blockOptPtrs, blockAt0Ptrs, blockAt1Ptrs, stmtListPtrs, armListPtrs, fieldListPtrs, patPtrs, patListPtrs, patOptPtrs, paramListPtrs, pcat])
        | cons p ps =>
          simp at h
          exact GoodRun.cast
            (GoodRun.seq (IH11 p (by omega)) (fun a => GoodRun.seq (IH13 ps (by omega)) (fun as2 => GoodRun.pure (a :: as2))))
            (by simp [exprPtrs, exprOptPtrs, exprListPtrs, blockPtrs, blockOptPtrs, blockAt0Ptrs, blockAt1Ptrs, stmtListPtrs, armListPtrs, fieldListPtrs, patPtrs, patListPtrs, patOptPtrs, paramListPtrs, pcat]) (by simp [exprPtrs, exprOptPtrs, exprListPtrs, blockPtrs, blockOptPtrs, blockAt0Ptrs, blockAt1Ptrs, stmtListPtrs, armListPtrs, fieldListPtrs, patPtrs, patListPtrs, patOptPtrs, paramListPtrs, pcat])
      · -- collectParamList
        intro params h
        cases params with
        | nil =>
          exact GoodRun.cast
            (GoodRun.pure (([], []) : List Nat × List (Option TypeRef)))
            (by simp [exprPtrs, exprOptPtrs, exprListPtrs, blockPtrs, blockOptPtrs, blockAt0Ptrs, blockAt1Ptrs, stmtListPtrs, armListPtrs, fieldListPtrs, patPtrs, patListPtrs, patOptPtrs, paramListPtrs, pcat]) (by simp [exprPtrs, exprOptPtrs, exprListPtrs, blockPtrs, blockOptPtrs, blockAt0Ptrs, blockAt1Ptrs, stmtListPtrs, armListPtrs, fieldListPtrs, patPtrs, patListPtrs, patOptPtrs, paramListPtrs, pcat])
        | cons prm params =>
          cases prm with
          | mk pat typeRef =>
            simp at h
            exact GoodRun.cast
              (GoodRun.seq (IH12 pat (by omega)) (fun a1 => GoodRun.seq (IH14 params (by omega)) (fun as2 => GoodRun.pure ((a1 :: as2.1, typeRef.map TypeRef.from_ast :: as2.2) : List Nat × List (Option TypeRef)))))
              (by simp [exprPtrs, exprOptPtrs, exprListPtrs, blockPtrs, blockOptPtrs, blockAt0Ptrs, blockAt1Ptrs, stmtListPtrs, armListPtrs, fieldListPtrs, patPtrs, patListPtrs, patOptPtrs, paramListPtrs, pcat]) (by simp [exprPtrs, exprOptPtrs, exprListPtrs, blockPtrs, blockOptPtrs, blockAt0Ptrs, blockAt1Ptrs, stmtListPtrs, armListPtrs, fieldListPtrs, patPtrs, patListPtrs, patOptPtrs, paramListPtrs, pcat])

lemma collectExpr_good (e : AstExpr) :
    GoodRun (exprPtrs e).1 (exprPtrs e).2 (collectExpr e) :=
  (collect_good_master (sizeOf e + 1)).1 e (Nat.lt_succ_self _)

lemma collectExprMapOpt_good (oe : Option AstExpr) :
    GoodRun (exprOptPtrs oe).1 (exprOptPtrs oe).2 (collectExprMapOpt oe) :=
  (collect_good_master (sizeOf oe + 1)).2.2.1 oe (Nat.lt_succ_self _)

lemma collectBlockOpt_good (ob : Option AstBlock) :
    GoodRun (blockOptPtrs ob).1 (blockOptPtrs ob).2 (collectBlockOpt ob) :=
  (collect_good_master (sizeOf ob + 1)).2.2.2.2.2.1 ob (Nat.lt_succ_self _)

lemma collectFieldList_good (fs : List AstNamedField) :
    GoodRun (fieldListPtrs fs).1 (fieldListPtrs fs).2 (collectFieldList fs) :=
  (collect_good_master (sizeOf fs + 1)).2.2.2.2.2.2.2.2.2.2.2.1 fs (Nat.lt_succ_self _)

lemma collectPat_good (p : AstPat) : GoodRun [] (patPtrs p) (collectPat p) :=
  (collect_good_master (sizeOf p + 1)).2.2.2.2.2.2.2.2.2.2.2.2.1 p (Nat.lt_succ_self _)

lemma collectFnParams_good (ps : List AstParam) :
    GoodRun [] (fnParamsPtrs ps) (collectFnParams ps) := by
  induction ps with
  | nil => exact GoodRun.cast (GoodRun.pure ([] : List Nat)) rfl rfl
  | cons prm ps ih =>
    cases prm with
    | mk pat typeRef =>
      rcases pat with _ | p
      · exact GoodRun.cast ih rfl rfl
      · exact GoodRun.cast
          (GoodRun.seq (collectPat_good p) (fun a =>
            GoodRun.seq ih (fun as2 => GoodRun.pure (a :: as2))))
          (by simp) (by simp [fnParamsPtrs])

lemma MapsInv_new : MapsInv ExprCollector.new := by
  refine ⟨?_, ?_, ?_, ?_⟩ <;> intro id
  · intro p hb; cases hb
  · intro p hb; cases hb
  · intro h; simp [ExprCollector.new] at h
  · intro h; simp [ExprCollector.new] at h

/-- C6: in a lowered function body whose syntax-node pointers are
pairwise distinct per map, the expression and pattern syntax maps are
consistent: whenever `expr_syntax`/`pat_syntax` returns a pointer for an
id, `syntax_expr`/`syntax_pat` on that pointer returns the same id; and
every arena entry with no syntax pointer is a synthesized node
(`Expr::Missing`, the synthesized empty block, or `Pat::Missing`) — so
every id produced from a real syntax node has its pointer and
round-trips. -/
theorem body_syntax_mapping_consistent (node : AstFnDef)
    (hnd1 : (fnPtrs node).1.Nodup) (hnd2 : (fnPtrs node).2.Nodup) :
    (∀ id p, (collectFnBodySyntaxMapping node).exprSyntaxPtr id = some p →
      (collectFnBodySyntaxMapping node).syntaxExpr p = some id) ∧
    (∀ id p, (collectFnBodySyntaxMapping node).patSyntaxPtr id = some p →
      (collectFnBodySyntaxMapping node).syntaxPat p = some id) ∧
    (∀ id, id < (collectFnBodySyntaxMapping node).body.exprs.length →
      (collectFnBodySyntaxMapping node).exprSyntaxPtr id = none →
      (collectFnBodySyntaxMapping node).body.exprs[id]? = some Expr.missing ∨
      (collectFnBodySyntaxMapping node).body.exprs[id]? = some (Expr.block [] none)) ∧
    (∀ id, id < (collectFnBodySyntaxMapping node).body.pats.length →
      (collectFnBodySyntaxMapping node).patSyntaxPtr id = none →
      (collectFnBodySyntaxMapping node).body.pats[id]? = some Pat.missing) := by
  obtain ⟨pl, body⟩ := node
  rcases pl with _ | ⟨sp, params⟩
  · have hg := GoodRun.cast (collectBlockOpt_good body)
      (show (blockOptPtrs body).1 = (fnPtrs ⟨none, body⟩).1 by simp [fnPtrs])
      (show (blockOptPtrs body).2 = (fnPtrs ⟨none, body⟩).2 by simp [fnPtrs])
    obtain ⟨⟨hA, hB, hC, hD⟩, -⟩ := hg ExprCollector.new MapsInv_new hnd1 hnd2
      (fun q _ => rfl) (fun q _ => rfl)
    exact ⟨fun id p hb => (hA id p hb).1, fun id p hb => (hB id p hb).1, hC, hD⟩
  · rcases sp with _ | sp
    · have hg := GoodRun.cast
        (GoodRun.seq (collectFnParams_good params) (fun a => collectBlockOpt_good body))
        (show [] ++ (blockOptPtrs body).1 = (fnPtrs ⟨some ⟨none, params⟩, body⟩).1 by
          simp [fnPtrs])
        (show fnParamsPtrs params ++ (blockOptPtrs body).2 =
            (fnPtrs ⟨some ⟨none, params⟩, body⟩).2 by simp [fnPtrs])
      obtain ⟨⟨hA, hB, hC, hD⟩, -⟩ := hg ExprCollector.new MapsInv_new hnd1 hnd2
        (fun q _ => rfl) (fun q _ => rfl)
      exact ⟨fun id p hb => (hA id p hb).1, fun id p hb => (hB id p hb).1, hC, hD⟩
    · have hg := GoodRun.cast
        (GoodRun.seq (GoodRun.allocPat (Pat.bind Name.self_param) sp.self_kw) (fun a1 =>
          GoodRun.seq (collectFnParams_good params) (fun a2 => collectBlockOpt_good body)))
        (show [] ++ ([] ++ (blockOptPtrs body).1) =
            (fnPtrs ⟨some ⟨some sp, params⟩, body⟩).1 by simp [fnPtrs])
        (show [sp.self_kw] ++ (fnParamsPtrs params ++ (blockOptPtrs body).2) =
            (fnPtrs ⟨some ⟨some sp, params⟩, body⟩).2 by simp [fnPtrs])
      obtain ⟨⟨hA, hB, hC, hD⟩, -⟩ := hg ExprCollector.new MapsInv_new hnd1 hnd2
        (fun q _ => rfl) (fun q _ => rfl)
      exact ⟨fun id p hb => (hA id p hb).1, fun id p hb => (hB id p hb).1, hC, hD⟩

/-- C6 witness: a concrete function `fn f(self, x) { (x) }`-like ast with
distinct pointers; its syntax maps round-trip and its unsynthesized
entries are characterized. -/
theorem body_syntax_mapping_consistent_witness :
    (∀ id p, (collectFnBodySyntaxMapping
        ⟨some ⟨some ⟨⟨⟨0, 4⟩, 7⟩⟩, [AstParam.mk (some (.bindPat ⟨⟨5, 6⟩, 3⟩ (some "x"))) none]⟩,
         some (.mk ⟨⟨8, 20⟩, 6⟩ [] (some (.parenExpr ⟨⟨9, 12⟩, 30⟩
           (some (.pathExpr ⟨⟨10, 11⟩, 4⟩ (some ⟨some ⟨["x"]⟩⟩))))))⟩).exprSyntaxPtr id = some p →
      (collectFnBodySyntaxMapping
        ⟨some ⟨some ⟨⟨⟨0, 4⟩, 7⟩⟩, [AstParam.mk (some (.bindPat ⟨⟨5, 6⟩, 3⟩ (some "x"))) none]⟩,
         some (.mk ⟨⟨8, 20⟩, 6⟩ [] (some (.parenExpr ⟨⟨9, 12⟩, 30⟩
           (some (.pathExpr ⟨⟨10, 11⟩, 4⟩ (some ⟨some ⟨["x"]⟩⟩))))))⟩).syntaxExpr p = some id) ∧ True :=
  ⟨(body_syntax_mapping_consistent _ (by decide) (by decide)).1, trivial⟩

lemma shorthand_ptr_mem :
    ∀ (fields : List AstNamedField) (i : Nat) (nr : NameRef),
      fields[i]? = some (.mk (some nr) none) → nr.ptr ∈ (fieldListPtrs fields).1 := by
  intro fields
  induction fields with
  | nil => intro i nr hf; cases hf
  | cons fld fs ih =>
    intro i nr hf
    cases i with
    | zero =>
      simp at hf
      subst hf
      simp [fieldListPtrs, pcat]
    | succ i =>
      simp only [List.getElem?_cons_succ] at hf
      have hmem := ih i nr hf
      cases fld with
      | mk nameRef fexpr =>
        rcases fexpr with _ | e
        · rcases nameRef with _ | nr2 <;> simp [fieldListPtrs, pcat, hmem]
        · simp [fieldListPtrs, pcat, hmem]

set_option maxHeartbeats 4000000 in
lemma fieldList_shorthand :
    ∀ (fields : List AstNamedField) (s : ExprCollector) (i : Nat) (nr : NameRef),
      MapsInv s →
      (fieldListPtrs fields).1.Nodup → (fieldListPtrs fields).2.Nodup →
      (∀ q ∈ (fieldListPtrs fields).1, s.expr_syntax_mapping.lookup q = none) →
      (∀ q ∈ (fieldListPtrs fields).2, s.pat_syntax_mapping.lookup q = none) →
      fields[i]? = some (.mk (some nr) none) →
      ∃ id, (collectFieldList fields s).1[i]? = some (StructLitField.mk nr.as_name id) ∧
        (collectFieldList fields s).2.exprs[id]? = some (.path (Path.from_name_ref nr)) ∧
        (collectFieldList fields s).2.expr_syntax_mapping.lookup nr.ptr = some id ∧
        (collectFieldList fields s).2.expr_syntax_mapping_back.lookup id = some nr.ptr := by
  intro fields
  induction fields with
  | nil => intro s i nr _ _ _ _ _ hf; cases hf
  | cons fld fs ih =>
    intro s i nr hinv hnd1 hnd2 hfr1 hfr2 hf
    cases i with
    | zero =>
      simp at hf
      subst hf
      have hc1 : (collectFieldList (AstNamedField.mk (some nr) none :: fs) s).1 =
          StructLitField.mk nr.as_name s.exprs.length ::
            (collectFieldList fs (allocExpr (.path (Path.from_name_ref nr)) nr.ptr s).2).1 := rfl
      have hc2 : (collectFieldList (AstNamedField.mk (some nr) none :: fs) s).2 =
          (collectFieldList fs (allocExpr (.path (Path.from_name_ref nr)) nr.ptr s).2).2 := rfl
      have he1 : (fieldListPtrs (AstNamedField.mk (some nr) none :: fs)).1 =
          [nr.ptr] ++ (fieldListPtrs fs).1 := by simp [fieldListPtrs, pcat]
      have he2 : (fieldListPtrs (AstNamedField.mk (some nr) none :: fs)).2 =
          (fieldListPtrs fs).2 := by simp [fieldListPtrs, pcat]
      rw [he1] at hnd1 hfr1
      rw [he2] at hnd2 hfr2
      have hfrnr : s.expr_syntax_mapping.lookup nr.ptr = none :=
        hfr1 nr.ptr (by simp)
      obtain ⟨hinv1, hext1⟩ :=
        goodrun_allocExpr (.path (Path.from_name_ref nr)) nr.ptr s hinv hfrnr
      obtain ⟨-, hext2⟩ := collectFieldList_good fs
        (allocExpr (.path (Path.from_name_ref nr)) nr.ptr s).2
        hinv1 (List.nodup_append.mp hnd1).2.1 hnd2
        (fresh_after_expr hext1 hfr1 hnd1)
        (fresh_after_pat hext1 hfr2 hnd2)
      refine ⟨s.exprs.length, ?_, ?_, ?_, ?_⟩
      · rw [hc1]
        exact List.getElem?_cons_zero
      · rw [hc2]
        rw [hext2.2.2.1 s.exprs.length (by simp [allocExpr])]
        exact List.getElem?_concat_length _ _
      · rw [hc2]
        exact hext2.2.2.2.2.2.2.1 nr.ptr s.exprs.length (lookup_cons_pos _ _ _)
      · rw [hc2]
        exact hext2.2.2.2.2.2.2.2.2.1 s.exprs.length nr.ptr (lookup_cons_pos _ _ _)
    | succ i =>
      simp only [List.getElem?_cons_succ] at hf
      cases fld with
      | mk nameRef fexpr =>
        rcases fexpr with _ | e
        · rcases nameRef with _ | nr2
          · have hc1 : (collectFieldList (AstNamedField.mk none none :: fs) s).1 =
                StructLitField.mk Name.missing s.exprs.length ::
                  (collectFieldList fs (allocExprRaw .missing s).2).1 := rfl
            have hc2 : (collectFieldList (AstNamedField.mk none none :: fs) s).2 =
                (collectFieldList fs (allocExprRaw .missing s).2).2 := rfl
            have he1 : (fieldListPtrs (AstNamedField.mk none none :: fs)).1 =
                (fieldListPtrs fs).1 := by simp [fieldListPtrs, pcat]
            have he2 : (fieldListPtrs (AstNamedField.mk none none :: fs)).2 =
                (fieldListPtrs fs).2 := by simp [fieldListPtrs, pcat]
            rw [he1] at hnd1 hfr1
            rw [he2] at hnd2 hfr2
            obtain ⟨hinv1, hext1⟩ := goodrun_allocExprRaw .missing s hinv (Or.inl rfl)
            obtain ⟨id, h1, h2, h3, h4⟩ := ih (allocExprRaw .missing s).2 i nr hinv1
              hnd1 hnd2
              (fresh_after_expr hext1 hfr1 hnd1)
              (fresh_after_pat hext1 hfr2 hnd2)
              hf
            refine ⟨id, ?_, ?_, ?_, ?_⟩
            · rw [hc1, List.getElem?_cons_succ]; exact h1
            · rw [hc2]; exact h2
            · rw [hc2]; exact h3
            · rw [hc2]; exact h4
          · have hc1 : (collectFieldList (AstNamedField.mk (some nr2) none :: fs) s).1 =
                StructLitField.mk nr2.as_name s.exprs.length ::
                  (collectFieldList fs
                    (allocExpr (.path (Path.from_name_ref nr2)) nr2.ptr s).2).1 := rfl
            have hc2 : (collectFieldList (AstNamedField.mk (some nr2) none :: fs) s).2 =
                (collectFieldList fs
                  (allocExpr (.path (Path.from_name_ref nr2)) nr2.ptr s).2).2 := rfl
            have he1 : (fieldListPtrs (AstNamedField.mk (some nr2) none :: fs)).1 =
                [nr2.ptr] ++ (fieldListPtrs fs).1 := by simp [fieldListPtrs, pcat]
            have he2 : (fieldListPtrs (AstNamedField.mk (some nr2) none :: fs)).2 =
                (fieldListPtrs fs).2 := by simp [fieldListPtrs, pcat]
            rw [he1] at hnd1 hfr1
            rw [he2] at hnd2 hfr2
            have hfrnr2 : s.expr_syntax_mapping.lookup nr2.ptr = none :=
              hfr1 nr2.ptr (by simp)
            obtain ⟨hinv1, hext1⟩ :=
              goodrun_allocExpr (.path (Path.from_name_ref nr2)) nr2.ptr s hinv hfrnr2
            obtain ⟨id, h1, h2, h3, h4⟩ := ih
              (allocExpr (.path (Path.from_name_ref nr2)) nr2.ptr s).2 i nr hinv1
              (List.nodup_append.mp hnd1).2.1 hnd2
              (fresh_after_expr hext1 hfr1 hnd1)
              (fresh_after_pat hext1 hfr2 hnd2)
              hf
            refine ⟨id, ?_, ?_, ?_, ?_⟩
            · rw [hc1, List.getElem?_cons_succ]; exact h1
            · rw [hc2]; exact h2
            · rw [hc2]; exact h3
            · rw [hc2]; exact h4
        · rcases nameRef with _ | nr2
          · have hc1 : (collectFieldList (AstNamedField.mk none (some e) :: fs) s).1 =
                StructLitField.mk Name.missing (collectExpr e s).1 ::
                  (collectFieldList fs (collectExpr e s).2).1 := rfl
            have hc2 : (collectFieldList (AstNamedField.mk none (some e) :: fs) s).2 =
                (collectFieldList fs (collectExpr e s).2).2 := rfl
            have he1 : (fieldListPtrs (AstNamedField.mk none (some e) :: fs)).1 =
                (exprPtrs e).1 ++ (fieldListPtrs fs).1 := by simp [fieldListPtrs, pcat]
            have he2 : (fieldListPtrs (AstNamedField.mk none (some e) :: fs)).2 =
                (exprPtrs e).2 ++ (fieldListPtrs fs).2 := by simp [fieldListPtrs, pcat]
            rw [he1] at hnd1 hfr1
            rw [he2] at hnd2 hfr2
            obtain ⟨hinv1, hext1⟩ := collectExpr_good e s hinv
              (List.nodup_append.mp hnd1).1 (List.nodup_append.mp hnd2).1
              (fun q hq => hfr1 q (List.mem_append.mpr (Or.inl hq)))
              (fun q hq => hfr2 q (List.mem_append.mpr (Or.inl hq)))
            obtain ⟨id, h1, h2, h3, h4⟩ := ih (collectExpr e s).2 i nr hinv1
              (List.nodup_append.mp hnd1).2.1 (List.nodup_append.mp hnd2).2.1
              (fresh_after_expr hext1 hfr1 hnd1) (fresh_after_pat hext1 hfr2 hnd2) hf
            refine ⟨id, ?_, ?_, ?_, ?_⟩
            · rw [hc1, List.getElem?_cons_succ]; exact h1
            · rw [hc2]; exact h2
            · rw [hc2]; exact h3
            · rw [hc2]; exact h4
          · have hc1 : (collectFieldList (AstNamedField.mk (some nr2) (some e) :: fs) s).1 =
                StructLitField.mk nr2.as_name (collectExpr e s).1 ::
                  (collectFieldList fs (collectExpr e s).2).1 := rfl
            have hc2 : (collectFieldList (AstNamedField.mk (some nr2) (some e) :: fs) s).2 =
                (collectFieldList fs (collectExpr e s).2).2 := rfl
            have he1 : (fieldListPtrs (AstNamedField.mk (some nr2) (some e) :: fs)).1 =
                (exprPtrs e).1 ++ (fieldListPtrs fs).1 := by simp [fieldListPtrs, pcat]
            have he2 : (fieldListPtrs (AstNamedField.mk (some nr2) (some e) :: fs)).2 =
                (exprPtrs e).2 ++ (fieldListPtrs fs).2 := by simp [fieldListPtrs, pcat]
            rw [he1] at hnd1 hfr1
            rw [he2] at hnd2 hfr2
            obtain ⟨hinv1, hext1⟩ := collectExpr_good e s hinv
              (List.nodup_append.mp hnd1).1 (List.nodup_append.mp hnd2).1
              (fun q hq => hfr1 q (List.mem_append.mpr (Or.inl hq)))
              (fun q hq => hfr2 q (List.mem_append.mpr (Or.inl hq)))
            obtain ⟨id, h1, h2, h3, h4⟩ := ih (collectExpr e s).2 i nr hinv1
              (List.nodup_append.mp hnd1).2.1 (List.nodup_append.mp hnd2).2.1
              (fresh_after_expr hext1 hfr1 hnd1) (fresh_after_pat hext1 hfr2 hnd2) hf
            refine ⟨id, ?_, ?_, ?_, ?_⟩
            · rw [hc1, List.getElem?_cons_succ]; exact h1
            · rw [hc2]; exact h2
            · rw [hc2]; exact h3
            · rw [hc2]; exact h4

/-- C8: lowering a struct literal with a field-init-shorthand field
(a name ref `x` with no field expression) synthesizes for that field a
path-reference expression `Expr::Path(Path::from_name_ref(x))`, records
the `x` name-ref token's pointer in the forward expression syntax map
and the id in the back map (both directions populated), and the lowered
struct literal's field list carries the field name with that id. -/
theorem struct_lit_shorthand
    (ptr : LocalSyntaxPtr) (path : Option AstPath) (fields : List AstNamedField)
    (spread : Option AstExpr) (s : ExprCollector) (i : Nat) (nr : NameRef)
    (hinv : MapsInv s)
    (hnd1 : (exprPtrs (.structLit ptr path (some fields) spread)).1.Nodup)
    (hnd2 : (exprPtrs (.structLit ptr path (some fields) spread)).2.Nodup)
    (hfr1 : ∀ q ∈ (exprPtrs (.structLit ptr path (some fields) spread)).1,
      s.expr_syntax_mapping.lookup q = none)
    (hfr2 : ∀ q ∈ (exprPtrs (.structLit ptr path (some fields) spread)).2,
      s.pat_syntax_mapping.lookup q = none)
    (hf : fields[i]? = some (.mk (some nr) none)) :
    ∃ id sp,
      (collectExpr (.structLit ptr path (some fields) spread) s).2.exprs[
          (collectExpr (.structLit ptr path (some fields) spread) s).1]? =
        some (.structLit (path.bind Path.from_ast) (collectFieldList fields s).1 sp) ∧
      (collectFieldList fields s).1[i]? = some (StructLitField.mk nr.as_name id) ∧
      (collectExpr (.structLit ptr path (some fields) spread) s).2.exprs[id]? =
        some (.path (Path.from_name_ref nr)) ∧
      (collectExpr (.structLit ptr path (some fields) spread)
          s).2.expr_syntax_mapping.lookup nr.ptr = some id ∧
      (collectExpr (.structLit ptr path (some fields) spread)
          s).2.expr_syntax_mapping_back.lookup id = some nr.ptr := by
  have hceq : collectExpr (.structLit ptr path (some fields) spread) s =
      allocExpr (.structLit (path.bind Path.from_ast)
          (collectFieldList fields s).1
          (collectExprMapOpt spread (collectFieldList fields s).2).1) ptr
        (collectExprMapOpt spread (collectFieldList fields s).2).2 := rfl
  have he1 : (exprPtrs (.structLit ptr path (some fields) spread)).1 =
      ((fieldListPtrs fields).1 ++ (exprOptPtrs spread).1) ++ [ptr] := by
    simp [exprPtrs, pcat]
  have he2 : (exprPtrs (.structLit ptr path (some fields) spread)).2 =
      (fieldListPtrs fields).2 ++ (exprOptPtrs spread).2 := by
    simp [exprPtrs, pcat]
  rw [he1] at hnd1 hfr1
  rw [he2] at hnd2 hfr2
  have hndFO1 : ((fieldListPtrs fields).1 ++ (exprOptPtrs spread).1).Nodup :=
    (List.nodup_append.mp hnd1).1
  have hndF1 : (fieldListPtrs fields).1.Nodup := (List.nodup_append.mp hndFO1).1
  have hndF2 : (fieldListPtrs fields).2.Nodup := (List.nodup_append.mp hnd2).1
  have hfrFO1 : ∀ q ∈ (fieldListPtrs fields).1 ++ (exprOptPtrs spread).1,
      s.expr_syntax_mapping.lookup q = none :=
    fun q hq => hfr1 q (List.mem_append.mpr (Or.inl hq))
  have hfrF1 : ∀ q ∈ (fieldListPtrs fields).1, s.expr_syntax_mapping.lookup q = none :=
    fun q hq => hfrFO1 q (List.mem_append.mpr (Or.inl hq))
  have hfrF2 : ∀ q ∈ (fieldListPtrs fields).2, s.pat_syntax_mapping.lookup q = none :=
    fun q hq => hfr2 q (List.mem_append.mpr (Or.inl hq))
  obtain ⟨id, h1, h2, h3, h4⟩ := fieldList_shorthand fields s i nr hinv hndF1 hndF2 hfrF1 hfrF2 hf
  obtain ⟨hinv1, hextF⟩ := collectFieldList_good fields s hinv hndF1 hndF2 hfrF1 hfrF2
  obtain ⟨hinv2, hextS⟩ := collectExprMapOpt_good spread (collectFieldList fields s).2 hinv1
    (List.nodup_append.mp hndFO1).2.1 (List.nodup_append.mp hnd2).2.1
    (fresh_after_expr hextF hfrFO1 hndFO1)
    (fresh_after_pat hextF hfr2 hnd2)
  have hextFS := Extends.trans hextF hextS
  have hfrptr : (collectExprMapOpt spread
      (collectFieldList fields s).2).2.expr_syntax_mapping.lookup ptr = none :=
    fresh_after_expr hextFS hfr1 hnd1 ptr (by simp)
  obtain ⟨hinv3, hextA⟩ := goodrun_allocExpr
    (.structLit (path.bind Path.from_ast) (collectFieldList fields s).1
      (collectExprMapOpt spread (collectFieldList fields s).2).1) ptr
    (collectExprMapOpt spread (collectFieldList fields s).2).2 hinv2 hfrptr
  have hidlt : id < (collectFieldList fields s).2.exprs.length := (hinv1.1 id nr.ptr h4).2
  refine ⟨id, (collectExprMapOpt spread (collectFieldList fields s).2).1, ?_, h1, ?_, ?_, ?_⟩
  · rw [hceq]
    exact List.getElem?_concat_length _ _
  · rw [hceq]
    rw [hextA.2.2.1 id (lt_of_lt_of_le hidlt hextS.1), hextS.2.2.1 id hidlt]
    exact h2
  · rw [hceq]
    exact hextA.2.2.2.2.2.2.1 nr.ptr id (hextS.2.2.2.2.2.2.1 nr.ptr id h3)
  · rw [hceq]
    exact hextA.2.2.2.2.2.2.2.2.1 id nr.ptr (hextS.2.2.2.2.2.2.2.2.1 id nr.ptr h4)

/-- C8 witness: lowering `Foo \x7b x \x7d` concretely — the shorthand
field's id points at a synthesized path expression and both syntax-map
directions hold for the `x` name-ref pointer. -/
theorem struct_lit_shorthand_witness :
    ∃ id sp,
      (collectExpr (.structLit ⟨⟨0, 10⟩, 20⟩ none
          (some [AstNamedField.mk (some ⟨⟨⟨2, 3⟩, 4⟩, "x"⟩) none]) none)
          ExprCollector.new).2.exprs[
          (collectExpr (.structLit ⟨⟨0, 10⟩, 20⟩ none
            (some [AstNamedField.mk (some ⟨⟨⟨2, 3⟩, 4⟩, "x"⟩) none]) none)
            ExprCollector.new).1]? =
        some (.structLit ((none : Option AstPath).bind Path.from_ast)
          (collectFieldList [AstNamedField.mk (some ⟨⟨⟨2, 3⟩, 4⟩, "x"⟩) none]
            ExprCollector.new).1 sp) ∧
      (collectFieldList [AstNamedField.mk (some ⟨⟨⟨2, 3⟩, 4⟩, "x"⟩) none]
          ExprCollector.new).1[0]? =
        some (StructLitField.mk (NameRef.as_name ⟨⟨⟨2, 3⟩, 4⟩, "x"⟩) id) ∧
      (collectExpr (.structLit ⟨⟨0, 10⟩, 20⟩ none
          (some [AstNamedField.mk (some ⟨⟨⟨2, 3⟩, 4⟩, "x"⟩) none]) none)
          ExprCollector.new).2.exprs[id]? =
        some (.path (Path.from_name_ref ⟨⟨⟨2, 3⟩, 4⟩, "x"⟩)) ∧
      (collectExpr (.structLit ⟨⟨0, 10⟩, 20⟩ none
          (some [AstNamedField.mk (some ⟨⟨⟨2, 3⟩, 4⟩, "x"⟩) none]) none)
          ExprCollector.new).2.expr_syntax_mapping.lookup
        (NameRef.ptr ⟨⟨⟨2, 3⟩, 4⟩, "x"⟩) = some id ∧
      (collectExpr (.structLit ⟨⟨0, 10⟩, 20⟩ none
          (some [AstNamedField.mk (some ⟨⟨⟨2, 3⟩, 4⟩, "x"⟩) none]) none)
          ExprCollector.new).2.expr_syntax_mapping_back.lookup id =
        some (NameRef.ptr ⟨⟨⟨2, 3⟩, 4⟩, "x"⟩) :=
  struct_lit_shorthand ⟨⟨0, 10⟩, 20⟩ none [AstNamedField.mk (some ⟨⟨⟨2, 3⟩, 4⟩, "x"⟩) none]
    none ExprCollector.new 0 ⟨⟨⟨2, 3⟩, 4⟩, "x"⟩ MapsInv_new (by decide) (by decide)
    (fun q _ => rfl) (fun q _ => rfl) rfl

/-- C2: refuted. For an impl block with a single type position
(`impl Type`), the syntax level has no target trait, yet
`ImplData::from_ast` computes its trait field from `target_type()` and
returns `some` — so "target trait is Some iff two type positions" fails;
moreover with two type positions the trait field holds the second child
(the target type), not the first (the syntactic trait). -/
theorem impl_from_ast_target_trait_bug :
    AstImplBlock.targetTrait ⟨[⟨7⟩]⟩ = none ∧
    (ImplData.from_ast ⟨[⟨7⟩]⟩).target_trait = some (TypeRef.ofAst 7) ∧
    (ImplData.from_ast ⟨[⟨7⟩]⟩).target_type = TypeRef.ofAst 7 ∧
    AstImplBlock.targetTrait ⟨[⟨5⟩, ⟨9⟩]⟩ = some ⟨5⟩ ∧
    (ImplData.from_ast ⟨[⟨5⟩, ⟨9⟩]⟩).target_trait = some (TypeRef.ofAst 9) := by
  decide

end Hir
